import Mathlib

/-!
Verification of the FTP_Galaxy2 synchronization engine.

This file is a shallow embedding, in Lean 4, of the parts of the
FTP_Galaxy2 repository that the verified properties talk about:

* the diff planner (`SYNC_APP/APP/SERVICES/diff_planer.py`),
* the stop-list component-key normalisation
  (`SYNC_APP/INFRA/utils.py, name_file_to_name_component`),
* the repository validator
  (`SYNC_APP/APP/SERVICES/repository_validator.py`),
* the FTP retry envelope and resumable download
  (`SYNC_APP/ADAPTERS/ftp.py`),
* the transfer orchestrator (`SYNC_APP/APP/SERVICES/transfer_service.py`),
* the sync controller (`SYNC_APP/APP/controller.py`).

Python dictionaries keyed by file name are modelled as lists of
`FileSnapshot` values looked up by their `name` field (the code always
builds those dicts with key = snapshot name); Python sets of names are
modelled as duplicate-free lists of strings; effectful operations
(network, file system) are modelled by explicit state passing with an
oracle describing the environment behaviour.
-/

namespace Galaxy

/-- `StatusReport` from `SYNC_APP/APP/types.py`: severity of a report item. -/
inductive StatusReport where
  | INFO
  | IMPORTANT_INFO
  | WARNING
  | ERROR
  | FATAL
deriving Repr, DecidableEq

/-- `FileSnapshot` from `SYNC_APP/APP/dto.py`: name, optional size, optional hash. -/
structure FileSnapshot where
  name : String
  size : Option Nat
  md5_hash : Option String
deriving Repr, DecidableEq

/-- `ReportItem` from `SYNC_APP/APP/dto.py`. -/
structure ReportItem where
  name : String
  status : StatusReport
  comment : String
deriving Repr, DecidableEq

/-- `DiffPlan` from `SYNC_APP/APP/dto.py`: the planner result. -/
structure DiffPlan where
  to_delete : List FileSnapshot
  to_download : List FileSnapshot
deriving Repr, DecidableEq

/-- `ModeDiffPlan` from `SYNC_APP/APP/types.py`. -/
inductive ModeDiffPlan where
  | USE_STOP_LIST
  | NOT_USE_STOP_LIST
deriving Repr, DecidableEq

/-! ## String utilities

`name_file_to_name_component` (SYNC_APP/INFRA/utils.py) uses
`os.path.splitext` and `str.rpartition`; the repository validator uses
`pathlib.Path(...).stem` and `str.rpartition`.  We embed those Python
primitives on `List Char` (the names here never contain a path
separator, matching how the code uses them: they are plain basenames). -/

/-- Index of the last occurrence of `c` in `l`, if any. -/
def lastIdxOf (c : Char) : List Char → Option Nat
  | [] => none
  | x :: xs =>
    match lastIdxOf c xs with
    | some i => some (i + 1)
    | none => if x = c then some 0 else none

/-- Python `str.isdigit` for the ASCII names used by this program:
nonempty and all characters are digits. -/
def pyIsdigit (l : List Char) : Bool :=
  !l.isEmpty && l.all Char.isDigit

/-- Python `os.path.splitext` on a bare file name (no separators):
split off the extension at the last dot, unless every character before
that dot is itself a dot. -/
def splitext (s : List Char) : List Char × List Char :=
  match lastIdxOf '.' s with
  | none => (s, [])
  | some i =>
    if (s.take i).all (fun ch => ch = '.') then (s, [])
    else (s.take i, s.drop i)

/-- Python `pathlib.PurePath(...).stem` on a bare file name: drop the
last dot-suffix, but only when the last dot is neither the first nor the
final character. -/
def pathStem (s : List Char) : List Char :=
  match lastIdxOf '.' s with
  | none => s
  | some i => if 0 < i ∧ i < s.length - 1 then s.take i else s

/-- Python `str.rpartition("_")` on a char list: `(before, sepFound, after)`. -/
def rpartitionUnderscore (s : List Char) : List Char × Bool × List Char :=
  match lastIdxOf '_' s with
  | none => ([], false, s)
  | some i => (s.take i, true, s.drop (i + 1))

/-- `name_file_to_name_component` from `SYNC_APP/INFRA/utils.py`:
strip a trailing `_NNN` release-number suffix from the stem, keep the
extension. -/
def name_file_to_name_component (name : String) : String :=
  let se := splitext name.toList
  let rp := rpartitionUnderscore se.1
  let stem := if rp.2.1 && pyIsdigit rp.2.2 then rp.1 else se.1
  (stem ++ se.2).asString

example : name_file_to_name_component "foo_12.zip" = "foo.zip" := by decide
example : name_file_to_name_component "bar.tar.gz" = "bar.tar.gz" := by decide
example : name_file_to_name_component "abc_007.txt" = "abc.txt" := by decide
example : name_file_to_name_component "AAA_123.zip" = "AAA.zip" := by decide
example : name_file_to_name_component "plain.txt" = "plain.txt" := by decide

/-! ## Sorting by key (Python `sorted(..., key=attrgetter("name"))`)

A stable insertion sort; stability and the comparison (lexicographic on
code points) match CPython `sorted` on `str`. -/

/-- CPython `str` comparison (`a <= b`): lexicographic on code points. -/
def charListLe : List Char → List Char → Bool
  | [], _ => true
  | _ :: _, [] => false
  | a :: as, b :: bs =>
    if a.toNat < b.toNat then true
    else if b.toNat < a.toNat then false
    else charListLe as bs

/-- `strLe a b` models Python `a <= b` on strings. -/
def strLe (a b : String) : Bool :=
  charListLe a.toList b.toList

/-- Insert `x` into an already sorted list, before the first element with a
strictly larger key (so equal keys keep their original relative order). -/
def insertByKey {α : Type} (key : α → String) (x : α) : List α → List α
  | [] => [x]
  | y :: ys =>
    if strLe (key x) (key y) then x :: y :: ys else y :: insertByKey key x ys

/-- Stable insertion sort by a string key. -/
def sortByKey {α : Type} (key : α → String) : List α → List α
  | [] => []
  | x :: xs => insertByKey key x (sortByKey key xs)

/-- `sorted` on plain strings. -/
def sortStrings (l : List String) : List String :=
  sortByKey id l

/-- `sorted(..., key=attrgetter("name"))` on snapshots. -/
def sortByName (l : List FileSnapshot) : List FileSnapshot :=
  sortByKey FileSnapshot.name l

/-! ## Diff planner (`SYNC_APP/APP/SERVICES/diff_planer.py`)

`RepositorySnapshot.files` is a Python dict name → FileSnapshot whose key
always equals the snapshot's `name` field; it is modelled as a
`List FileSnapshot` (duplicate-free by construction in the code — the
theorems take a `Nodup` hypothesis on names where that matters). -/

/-- The relevant slice of `DiffInput` (`SYNC_APP/APP/dto.py`):
`context.app.add_list`, `context.app.stop_list`, `context.mode_stop_list`
plus the two snapshots. -/
structure DiffInput where
  add_list : List String
  stop_list : List String
  mode_stop_list : ModeDiffPlan
  local_files : List FileSnapshot
  remote_files : List FileSnapshot
deriving Repr, DecidableEq

/-- `SyncPlan` from `diff_planer.py`. -/
structure SyncPlan where
  to_delete : List FileSnapshot
  to_download : List FileSnapshot
  denied_download : List String
  mismatched : List FileSnapshot
deriving Repr, DecidableEq

/-- Names of a snapshot list: `set(files)` over the dict keys. -/
def namesOf (files : List FileSnapshot) : List String :=
  files.map FileSnapshot.name

/-- Dict lookup `files.get(name)`. -/
def lookupSnap (files : List FileSnapshot) (n : String) : Option FileSnapshot :=
  files.find? (fun s => s.name = n)

/-- `DiffPlanner._compute_sync_name_sets`: `(common, delete, raw_download)`
as `local ∩ remote`, `local − remote`, `remote − local` (by name). -/
def compute_sync_name_sets (localNames remoteNames : List String) :
    List String × List String × List String :=
  (localNames.filter (fun n => n ∈ remoteNames),
   localNames.filter (fun n => n ∉ remoteNames),
   remoteNames.filter (fun n => n ∉ localNames))

/-- The download candidates inside `DiffPlanner._apply_stop_add_lists`:
`result_downloads = set(raw_download_names) | (set(add_list) & raw_remote_names)`. -/
def downloadCandidates (addList rawDownloadNames rawRemoteNames : List String) :
    List String :=
  let addSet := (addList.dedup).filter (fun n => n ∈ rawRemoteNames)
  rawDownloadNames ++ addSet.filter (fun n => n ∉ rawDownloadNames)

/-- The delete set inside `DiffPlanner._apply_stop_add_lists`:
`result_deletes = set(raw_delete_names) | (set(add_list) & raw_remote_names)`. -/
def deleteCandidates (addList rawDeleteNames rawRemoteNames : List String) :
    List String :=
  let addSet := (addList.dedup).filter (fun n => n ∈ rawRemoteNames)
  rawDeleteNames ++ addSet.filter (fun n => n ∉ rawDeleteNames)

/-- Python `str.strip()`: drop leading and trailing whitespace. -/
def pyStrip (s : String) : String :=
  ((((s.toList).dropWhile Char.isWhitespace).reverse.dropWhile
    Char.isWhitespace).reverse).asString

/-- `DiffPlanner._get_files_excluded_by_stop_list`: the subset of the
download candidates whose component key occurs in the stop list (whose
entries are stripped of surrounding whitespace first).  The code
iterates `sorted(downloads)`. -/
def get_files_excluded_by_stop_list (stopList : List String)
    (downloads : List String) : List String :=
  let stopSet := stopList.map pyStrip
  (sortStrings downloads).filter
    (fun item => name_file_to_name_component item ∈ stopSet)

/-- `DiffPlanner._apply_stop_add_lists`.  Note the early return: when the
raw download set is empty the method returns three empty sets, dropping
the raw delete names as well. -/
def apply_stop_add_lists (data : DiffInput)
    (rawDownloadNames rawDeleteNames rawRemoteNames : List String) :
    List String × List String × List String :=
  if rawDownloadNames.isEmpty then ([], [], [])
  else
    let resultDownloads :=
      downloadCandidates data.add_list rawDownloadNames rawRemoteNames
    let resultDeletes :=
      deleteCandidates data.add_list rawDeleteNames rawRemoteNames
    if data.mode_stop_list = ModeDiffPlan.USE_STOP_LIST then
      let denied := get_files_excluded_by_stop_list data.stop_list resultDownloads
      (resultDownloads.filter (fun n => n ∉ denied), resultDeletes, denied)
    else (resultDownloads, resultDeletes, [])

/-- `DiffPlanner._collect_snapshots`: gather snapshots for the given names,
skipping names missing from the dict. -/
def collect_snapshots (files : List FileSnapshot) (names : List String) :
    List FileSnapshot :=
  names.filterMap (lookupSnap files)

/-- `DiffPlanner._get_mismatched_files`: common names whose local and remote
sizes differ, each marked by a fresh `FileSnapshot` with no size and no hash. -/
def get_mismatched_files (commonNames : List String)
    (localFiles remoteFiles : List FileSnapshot) : List FileSnapshot :=
  commonNames.filterMap (fun n =>
    match lookupSnap localFiles n, lookupSnap remoteFiles n with
    | some l, some r =>
      if l.size ≠ r.size then some ⟨n, none, none⟩ else none
    | _, _ => none)

/-- `DiffPlanner._build_plan`: merge the mismatched files into both lists
and sort each by name. -/
def build_plan (toDelete toDownload mismatched : List FileSnapshot) : DiffPlan :=
  { to_delete := sortByName (toDelete ++ mismatched)
    to_download := sortByName (toDownload ++ mismatched) }

/-- Comment attached to each stop-list exclusion (`DiffPlanner._build_report`). -/
def stopListComment : String :=
  "Файл запланирован к скачиванию, но находится в stop листе. Скачиваться не будет"

/-- `DiffPlanner._build_report`: one WARNING per denied name. -/
def build_report (deniedDownload : List String) : List ReportItem :=
  deniedDownload.map (fun n => ⟨n, StatusReport.WARNING, stopListComment⟩)

/-- `DiffPlanner._build_sync_plan`. -/
def build_sync_plan (data : DiffInput) : SyncPlan :=
  let localNames := namesOf data.local_files
  let remoteNames := namesOf data.remote_files
  let sets := compute_sync_name_sets localNames remoteNames
  let applied := apply_stop_add_lists data sets.2.2 sets.2.1 remoteNames
  { to_delete := collect_snapshots data.local_files applied.2.1
    to_download := collect_snapshots data.remote_files applied.1
    denied_download := applied.2.2
    mismatched := get_mismatched_files sets.1 data.local_files data.remote_files }

/-- Comment of the IMPORTANT_INFO item emitted when there is nothing to do. -/
def nothingToDoComment : String :=
  "Обновлений нет. К скачиваню ничего не запланировано."

/-- `DiffPlanner.run`: returns `(plan, is_valid, report)`. -/
def DiffPlanner.run (data : DiffInput) :
    DiffPlan × Bool × List ReportItem :=
  let syncPlan := build_sync_plan data
  let plan := build_plan syncPlan.to_delete syncPlan.to_download syncPlan.mismatched
  let report := build_report syncPlan.denied_download
  let is_valid := syncPlan.denied_download.isEmpty
  let report :=
    if is_valid && plan.to_download.isEmpty && plan.to_delete.isEmpty
        && report.isEmpty then
      report ++ [⟨"", StatusReport.IMPORTANT_INFO, nothingToDoComment⟩]
    else report
  (plan, is_valid, report)

/-! ## Repository validator (`SYNC_APP/APP/SERVICES/repository_validator.py`) -/

/-- `RepositoryValidator.get_component_names`: for each file name take
`Path(name).stem.rpartition("_")`; keep the prefix whenever the tail is
all digits (note: unlike `name_file_to_name_component`, no check that an
underscore was found, no extension kept, and names without a digit tail
are dropped entirely). -/
def get_component_names (repositoryFiles : List String) : List String :=
  repositoryFiles.filterMap (fun f =>
    let rp := rpartitionUnderscore (pathStem f.toList)
    if pyIsdigit rp.2.2 then some rp.1.asString else none)

/-- One `defaultdict[int]` increment: bump the count for `k`, inserting it
with count 1 when absent (insertion order preserved). -/
def bumpCount : List (String × Nat) → String → List (String × Nat)
  | [], k => [(k, 1)]
  | (a, c) :: m, k =>
    if a = k then (a, c + 1) :: m else (a, c) :: bumpCount m k

/-- The adjacent-duplicate scan inside
`RepositoryValidator.get_dublicate_component`: walk the (sorted) component
names, incrementing the count for every element equal to its predecessor. -/
def dupScan : List String → Option String → List (String × Nat) →
    List (String × Nat)
  | [], _, m => m
  | x :: xs, prev, m =>
    dupScan xs (some x) (if prev = some x then bumpCount m x else m)

/-- `RepositoryValidator.get_dublicate_component`: component → number of
extra occurrences, computed over the sorted component names. -/
def get_dublicate_component (componentNames : List String) :
    List (String × Nat) :=
  dupScan (sortStrings componentNames) none []

/-- `RepositoryValidator.output_to_reports`: one ERROR per duplicated
component. -/
def output_to_reports (dublicateComponents : List (String × Nat)) :
    List ReportItem :=
  dublicateComponents.map (fun p =>
    ⟨p.1, StatusReport.ERROR,
      "Компонент присутситвует в репозитории " ++ toString (p.2 + 1) ++ " раза/раз"⟩)

/-- `RepositoryValidator.run` on the list of live-repository file names. -/
def RepositoryValidator.run (names : List String) : List ReportItem :=
  output_to_reports (get_dublicate_component (get_component_names names))

/-! ## FTP retry envelope (`SYNC_APP/ADAPTERS/ftp.py, Ftp._ftp_call`)

One protocol call is retried up to `ftp_repeat` times.  The network is an
oracle giving, for each attempt index, the attempt's outcome.  A transient
fault (`timeout`, `OSError`, `error_temp`, `EOFError`,
`ConnectionResetError`, `BrokenPipeError`, `AttributeError`) triggers one
`_reconnect` (itself never retried — its outcome is part of the oracle
value), a fixed sleep, and the next attempt.  A permanent fault
(`error_perm`, `error_reply`, `error_proto`) or an unknown exception is
rethrown as the mapped domain error immediately. -/

/-- Outcome of one attempt of the wrapped action, as seen by `_ftp_call`.
For a transient fault, `recon` is the error message of the failed
`_reconnect`, or `none` when reconnecting succeeded. -/
inductive Attempt (α : Type) where
  | ok (a : α)
  | tempFault (msg : String) (recon : Option String)
  | permFault (msg : String)
  | unknownFault (msg : String)
deriving Repr, DecidableEq

/-- Result of `_ftp_call`: either the action's value or the raised domain
error (`err_cls` is carried as the string `cls`). -/
inductive FtpCallResult (α : Type) where
  | ok (a : α)
  | permanentError (cls : String) (cause : String)
  | unknownError (cls : String) (cause : String)
  | exhausted (cls : String) (lastCause : Option String)
deriving Repr, DecidableEq

/-- The retry loop of `_ftp_call`; returns the result plus the number of
`_reconnect` invocations and the number of `sleep` calls performed.
`fuel` is the number of attempts still allowed, `i` the index of the next
attempt, `lastErr` the `last_error` accumulator. -/
def ftpCallGo {α : Type} (cls : String) (attempts : Nat → Attempt α) :
    Nat → Nat → Option String → FtpCallResult α × Nat × Nat
  | 0, _, lastE => (FtpCallResult.exhausted cls lastE, 0, 0)
  | fuel + 1, i, _lastErr =>
    match attempts i with
    | Attempt.ok a => (FtpCallResult.ok a, 0, 0)
    | Attempt.permFault m => (FtpCallResult.permanentError cls m, 0, 0)
    | Attempt.unknownFault m => (FtpCallResult.unknownError cls m, 0, 0)
    | Attempt.tempFault m recon =>
      let r := ftpCallGo cls attempts fuel (i + 1) (some (recon.getD m))
      (r.1, r.2.1 + 1, r.2.2 + 1)

/-- `Ftp._ftp_call` with `ftp_repeat = repeatCount`. -/
def ftp_call {α : Type} (cls : String) (repeatCount : Nat)
    (attempts : Nat → Attempt α) : FtpCallResult α × Nat × Nat :=
  ftpCallGo cls attempts repeatCount 0 none

/-! ## Resumable download (`SYNC_APP/ADAPTERS/ftp.py, Ftp.download_file`)

The local file is represented by its length (`0` = absent, exactly what
`_local_size` reports).  A network oracle gives, for each attempt of
`_retrbinary_with_resume` inside `_ftp_call`, the number of bytes the
callback wrote before the attempt finished and how it finished.  The
model records every `open` (with its mode and the `offset` argument) and
every issued `RETR` together with its `rest` value, which
`_retrbinary_with_resume` recomputes from `f.tell()` on each attempt. -/

/-- File open mode chosen by `_download_attempt`:
`"ab" if offset else "wb"`. -/
inductive FileMode where
  | append
  | write
deriving Repr, DecidableEq

/-- One attempt of the `RETR` action: bytes written by the progress
callback before the attempt ended, and how it ended. -/
structure RetrStep where
  written : Nat
  outcome : Attempt Unit
deriving Repr

/-- The `_ftp_call` loop around `_retrbinary_with_resume`: threads the
current local length, recording the `rest` value of every issued `RETR`.
Returns `(finalLen, rest values, raised DownloadFileError if any)`. -/
def retrLoop (net : Nat → RetrStep) :
    Nat → Nat → Nat → Option String → Nat × List Nat × Option String
  | 0, _, len, lastE =>
    (len, [], some ("Не удалось выполнить загрузку. Последняя ошибка: "
      ++ toString lastE))
  | fuel + 1, i, len, _lastErr =>
    let step := net i
    let len' := len + step.written
    match step.outcome with
    | Attempt.ok _ => (len', [len], none)
    | Attempt.permFault m => (len', [len], some m)
    | Attempt.unknownFault m => (len', [len], some m)
    | Attempt.tempFault m recon =>
      let r := retrLoop net fuel (i + 1) len' (some (recon.getD m))
      (r.1, len :: r.2.1, r.2.2)

/-- Result of one `_download_attempt` (and of `download_file` itself):
final local length, the opens performed (mode, `offset` argument), the
`rest` values of the issued fetches, and the raised error, if any. -/
structure DownloadOut where
  finalLen : Nat
  opens : List (FileMode × Nat)
  fetches : List Nat
  error : Option String
deriving Repr

/-- `Ftp._download_attempt`: open the local file (`"ab"` iff the offset is
nonzero, `"wb"` truncates) and run the fetch under the retry envelope. -/
def download_attempt (repeatCount : Nat) (net : Nat → RetrStep)
    (len offset : Nat) : DownloadOut :=
  let mode := if offset ≠ 0 then FileMode.append else FileMode.write
  let len0 := match mode with
    | FileMode.append => len
    | FileMode.write => 0
  let r := retrLoop net repeatCount 0 len0 none
  ⟨r.1, [(mode, offset)], r.2.1, r.2.2⟩

/-- The final size check of `Ftp.download_file` (its steps 2 and 3):
return normally when the local size now matches, raise otherwise. -/
def finish_download (expected : Nat) (a : DownloadOut) : DownloadOut :=
  if a.finalLen = expected then ⟨a.finalLen, a.opens, a.fetches, none⟩
  else ⟨a.finalLen, a.opens, a.fetches,
    some "Размер скаченного файла не совпал с размером файла на FTP."⟩

/-- `Ftp._try_resume_after_failure` (reached when the first
`_download_attempt` raised `e`): recompute the offset from the local
file; re-raise `e` when there is nothing to resume, otherwise run one
more `_download_attempt` and re-check the size. -/
def resume_or_raise (repeatCount : Nat) (net2 : Nat → RetrStep)
    (expected : Nat) (e : String) (a1 : DownloadOut) : DownloadOut :=
  let off2 := if a1.finalLen > expected then 0 else a1.finalLen
  if off2 = 0 then ⟨a1.finalLen, a1.opens, a1.fetches, some e⟩
  else
    let a2 := download_attempt repeatCount net2 a1.finalLen off2
    match a2.error with
    | some e2 => ⟨a2.finalLen, a1.opens ++ a2.opens,
        a1.fetches ++ a2.fetches, some e2⟩
    | none =>
      let f := finish_download expected a2
      ⟨f.finalLen, a1.opens ++ a2.opens, a1.fetches ++ a2.fetches, f.error⟩

/-- `Ftp.download_file` for a file of server-reported size `size`, local
length `initialLen`; `net1` drives the first `_download_attempt`, `net2`
the resume attempt made by `_try_resume_after_failure`. -/
def download_file (repeatCount : Nat) (net1 net2 : Nat → RetrStep)
    (size : Option Nat) (initialLen : Nat) : DownloadOut :=
  match size with
  | none => ⟨initialLen, [], [], some "Размер не указан сервером — файл пропущен."⟩
  | some expected =>
    if initialLen = expected then ⟨initialLen, [], [], none⟩
    else
      -- local file longer than the server file: unlink and restart from zero
      let start := if initialLen > expected then 0 else initialLen
      let a1 := download_attempt repeatCount net1 start start
      match a1.error with
      | none => finish_download expected a1
      | some e => resume_or_raise repeatCount net2 expected e a1

/-! ## Transfer orchestrator (`SYNC_APP/APP/SERVICES/transfer_service.py`)

Directories are lists of entries; the operator decision is an injected
function of the staging contents; downloads are driven by an oracle
mapping a file name to the raised `DownloadFileError`, if any. -/

/-- `NewDirAction` from `transfer_service.py`. -/
inductive NewDirAction where
  | CONTINUE
  | RESTART
  | STOP
deriving Repr, DecidableEq

/-- A directory entry as the service observes it: name, whether it is a
regular file, and its size. -/
structure DirEntry where
  name : String
  isFile : Bool
  size : Nat
deriving Repr, DecidableEq

/-- `clean_dir` from `SYNC_APP/INFRA/utils.py`: delete every file; any
non-file entry raises `LocalFileAccessError`. -/
def clean_dir (entries : List DirEntry) : Except String (List DirEntry) :=
  if entries.all (fun e => e.isFile) then Except.ok []
  else Except.error "LocalFileAccessError"

/-- `TransferService._sanitize_new_dir`: a non-file entry is reported
FATAL (and kept); a zero-size file is unlinked; a zero-size non-file
makes the unlink raise. Returns the report items and the surviving
entries. -/
def sanitize_new_dir : List DirEntry →
    Except String (List ReportItem × List DirEntry)
  | [] => Except.ok ([], [])
  | e :: rest => do
    let items :=
      if e.isFile then []
      else [ReportItem.mk e.name StatusReport.FATAL
        (e.name ++ " не является файлом или не существует в директории NEW")]
    if e.size = 0 then
      if e.isFile then
        let r ← sanitize_new_dir rest
        pure (items ++ r.1, r.2)
      else Except.error "LocalFileAccessError"
    else
      let r ← sanitize_new_dir rest
      pure (items ++ r.1, e :: r.2)

/-- The ERROR item appended when the operator chooses STOP. -/
def stopReportItem : ReportItem :=
  ⟨"", StatusReport.ERROR, "Пользователь отказался продолжать работу"⟩

/-- The ERROR items produced by
`TransferService._download_files_from_snapshots`: one per file whose
`Ftp.download_file` raised (`dl name = some error`). -/
def downloadReport (dl : String → Option String) (names : List String) :
    List ReportItem :=
  names.filterMap (fun n =>
    (dl n).map (fun e =>
      ReportItem.mk n StatusReport.ERROR
        ("Файл не загружен на локальный диск " ++ e)))

/-- Input slice of `TransferService.run`: the planned snapshots and the
current contents of the staging (NEW) and retired (OLD) directories. -/
structure TransferInput where
  snapshots_for_loading : List FileSnapshot
  new_dir : List DirEntry
  old_dir : List DirEntry
deriving Repr

/-- Observable outcome of `TransferService.run`: the returned flag and
report, the directory states after the decision/sanitize stage (i.e.
just before downloading), and the names handed to
`Ftp.download_file`. -/
structure TransferOutcome where
  ok : Bool
  report : List ReportItem
  new_dir_before_download : List DirEntry
  old_dir_after : List DirEntry
  downloads : List String
deriving Repr

/-- `TransferService.run`: `selector` is the injected decision function,
`dl name` the `DownloadFileError` raised for `name` (if any). -/
def TransferService.run (selector : List DirEntry → NewDirAction)
    (dl : String → Option String) (inp : TransferInput) :
    Except String TransferOutcome := do
  -- _ensure_new_and_old_dirs_are_ready
  let decision ←
    (if inp.new_dir.isEmpty then pure (some (inp.new_dir, inp.old_dir))
     else
      match selector inp.new_dir with
      | NewDirAction.STOP => pure none
      | NewDirAction.RESTART => do
          let n ← clean_dir inp.new_dir
          let o ← clean_dir inp.old_dir
          pure (some (n, o))
      | NewDirAction.CONTINUE => pure (some (inp.new_dir, inp.old_dir)))
  match decision with
  | none => pure ⟨false, [stopReportItem], inp.new_dir, inp.old_dir, []⟩
  | some (newDir, oldDir) =>
    let san ← sanitize_new_dir newDir
    let names := inp.snapshots_for_loading.map FileSnapshot.name
    let report := san.1 ++ downloadReport dl names
    pure ⟨report.isEmpty, report, san.2, oldDir, names⟩

/-! ## Sync controller (`src/SRC/SYNC_APP/APP/controller.py`)

The controller is pure orchestration; the model records the sequence of
service invocations for a run whose stage results are given up front. -/

/-- The service calls `SyncController.run` can make, in order. -/
inductive CtrlEvent where
  | gateCheck
  | snapshotLocal
  | snapshotRemote
  | plannerRun
  | transferRun
  | validateRun
  | commitRun
  | recordRun
  | repositoryValidate
  | reportRun
deriving Repr, DecidableEq

/-- Stage results of one controller run: whether the gate said SKIP, the
planner validity flag, the transfer success flag and the post-download
validation flag. -/
structure ControllerInput where
  gate_skip : Bool
  is_validate_plan : Bool
  is_validate_download : Bool
  is_validate_commit : Bool
deriving Repr, DecidableEq

/-- `SyncController.run` together with
`SyncController._validate_commit_execution_gate`, as the sequence of
service invocations it performs.  The commit is guarded by
`valid_commit_input.is_validate` (= plan flag AND download flag) and the
validator flag; `execution_gate.record_run` is invoked right after,
outside that guard. -/
def SyncController.run (inp : ControllerInput) : List CtrlEvent :=
  if inp.gate_skip then [CtrlEvent.gateCheck]
  else
    [CtrlEvent.gateCheck, CtrlEvent.snapshotLocal, CtrlEvent.snapshotRemote,
     CtrlEvent.plannerRun, CtrlEvent.transferRun,
     CtrlEvent.snapshotLocal, CtrlEvent.snapshotRemote, CtrlEvent.validateRun]
    ++ (if (inp.is_validate_plan && inp.is_validate_download)
          && inp.is_validate_commit then [CtrlEvent.commitRun] else [])
    ++ [CtrlEvent.recordRun, CtrlEvent.repositoryValidate, CtrlEvent.reportRun]

/-! ## Derived planner notions referenced by the theorems -/

/-- The `raw_download_names` set of the planner for a given input. -/
def rawDownloadNames (data : DiffInput) : List String :=
  (compute_sync_name_sets (namesOf data.local_files)
    (namesOf data.remote_files)).2.2

/-- The `common_names` set of the planner for a given input. -/
def commonNames (data : DiffInput) : List String :=
  (compute_sync_name_sets (namesOf data.local_files)
    (namesOf data.remote_files)).1

/-- The `result_downloads` set of `_apply_stop_add_lists` for a given
input: empty when the raw download set is empty (the early return),
otherwise the raw download names extended by the add-list names present
remotely. -/
def downloadCandidatesOf (data : DiffInput) : List String :=
  if (rawDownloadNames data).isEmpty then []
  else downloadCandidates data.add_list (rawDownloadNames data)
    (namesOf data.remote_files)

/-- The `denied_download` set of the planner for a given input. -/
def deniedOf (data : DiffInput) : List String :=
  (build_sync_plan data).denied_download

/-- The `mismatched` list of the planner for a given input. -/
def mismatchedOf (data : DiffInput) : List FileSnapshot :=
  (build_sync_plan data).mismatched

/-! ## Concrete inputs and auxiliary definitions used by the theorems -/

/-- The failing input for C1: two local-only files, empty remote snapshot. -/
def c1_data : DiffInput :=
  { add_list := []
    stop_list := []
    mode_stop_list := ModeDiffPlan.NOT_USE_STOP_LIST
    local_files := [⟨"a", some 10, none⟩, ⟨"b", some 20, none⟩]
    remote_files := [] }

/-- Replace every snapshot's hash field, keeping names and sizes: used to
state that the planner's mismatch detection never reads the hashes. -/
def setSnapHash (f : FileSnapshot → Option String)
    (files : List FileSnapshot) : List FileSnapshot :=
  files.map (fun s => ⟨s.name, s.size, f s⟩)

/-- Scenario 2 of the specification: `local={x.bin:10}`, `remote={x.bin:999}`. -/
def c2_data : DiffInput :=
  { add_list := []
    stop_list := []
    mode_stop_list := ModeDiffPlan.NOT_USE_STOP_LIST
    local_files := [⟨"x.bin", some 10, none⟩]
    remote_files := [⟨"x.bin", some 999, none⟩] }

/-- Counterexample input for C3: the add-list forces a re-download of
`n_1.zip`, which is present on both sides with different sizes and whose
component key is stop-listed. -/
def c3_data : DiffInput :=
  { add_list := ["n_1.zip"]
    stop_list := ["n.zip"]
    mode_stop_list := ModeDiffPlan.USE_STOP_LIST
    local_files := [⟨"n_1.zip", some 10, none⟩]
    remote_files := [⟨"n_1.zip", some 20, none⟩, ⟨"m_1.zip", some 5, none⟩] }

/-- Adjacent-duplicate test: `adjDupB prev l k` is true when somewhere in
`prev :: l` the element `k` occurs immediately after an equal element —
exactly the situation in which `dupScan` bumps a count for `k`. -/
def adjDupB : Option String → List String → String → Bool
  | _, [], _ => false
  | prev, x :: xs, k =>
    (prev == some x && x == k) || adjDupB (some x) xs k

/-- A network that always delivers one byte and completes: used as a
benign oracle in witnesses. -/
def constOkNet : Nat → RetrStep := fun _ => ⟨1, Attempt.ok ()⟩

/-- A network attempt that writes three bytes and then times out. -/
def tempNet3 : Nat → RetrStep := fun _ => ⟨3, Attempt.tempFault "timeout" none⟩

/-- A network attempt that writes nothing and times out. -/
def tempNet0 : Nat → RetrStep := fun _ => ⟨0, Attempt.tempFault "timeout" none⟩

/-- `_ftp_call` oracle: one transient fault, then a permanent one. -/
def c6AttemptsPerm : Nat → Attempt Nat := fun i =>
  if i = 0 then Attempt.tempFault "timeout" none
  else Attempt.permFault "550 denied"

/-- `_ftp_call` oracle: two transient faults (the second reconnect
failing), then success. -/
def c6AttemptsOk : Nat → Attempt Nat := fun i =>
  if i = 0 then Attempt.tempFault "timeout" none
  else if i = 1 then Attempt.tempFault "timeout" (some "reconnect failed")
  else Attempt.ok 7

/-- `_ftp_call` oracle: every attempt fails transiently. -/
def c6AttemptsTemp : Nat → Attempt Nat := fun i =>
  Attempt.tempFault (toString i) none

/-! ## Supporting lemmas: the string order -/

theorem charListLe_total : ∀ as bs : List Char,
    charListLe as bs = true ∨ charListLe bs as = true
  | [], _ => Or.inl rfl
  | _ :: _, [] => Or.inr rfl
  | a :: as, b :: bs => by
    simp only [charListLe]
    rcases Nat.lt_trichotomy a.toNat b.toNat with h | h | h
    · left
      rw [if_pos h]
    · have h1 : ¬ a.toNat < b.toNat := by omega
      have h2 : ¬ b.toNat < a.toNat := by omega
      rw [if_neg h1, if_neg h2, if_neg h2, if_neg h1]
      exact charListLe_total as bs
    · right
      rw [if_pos h]

theorem charListLe_trans : ∀ as bs cs : List Char,
    charListLe as bs = true → charListLe bs cs = true →
      charListLe as cs = true
  | [], _, _, _, _ => rfl
  | _ :: _, [], _, h1, _ => by simp [charListLe] at h1
  | _ :: _, _ :: _, [], _, h2 => by simp [charListLe] at h2
  | a :: as, b :: bs, c :: cs, h1, h2 => by
    simp only [charListLe] at h1 h2 ⊢
    rcases Nat.lt_trichotomy a.toNat b.toNat with hab | hab | hab
    · rcases Nat.lt_trichotomy b.toNat c.toNat with hbc | hbc | hbc
      · rw [if_pos (Nat.lt_trans hab hbc)]
      · rw [if_pos (hbc ▸ hab)]
      · rw [if_neg (by omega : ¬ b.toNat < c.toNat),
          if_pos hbc] at h2
        exact absurd h2 (by simp)
    · rw [if_neg (by omega : ¬ a.toNat < b.toNat),
        if_neg (by omega : ¬ b.toNat < a.toNat)] at h1
      rcases Nat.lt_trichotomy b.toNat c.toNat with hbc | hbc | hbc
      · rw [if_pos (hab ▸ hbc)]
      · rw [if_neg (by omega : ¬ b.toNat < c.toNat),
          if_neg (by omega : ¬ c.toNat < b.toNat)] at h2
        rw [if_neg (by omega : ¬ a.toNat < c.toNat),
          if_neg (by omega : ¬ c.toNat < a.toNat)]
        exact charListLe_trans as bs cs h1 h2
      · rw [if_neg (by omega : ¬ b.toNat < c.toNat),
          if_pos hbc] at h2
        exact absurd h2 (by simp)
    · rw [if_neg (by omega : ¬ a.toNat < b.toNat),
        if_pos hab] at h1
      exact absurd h1 (by simp)

theorem charListLe_antisymm : ∀ as bs : List Char,
    charListLe as bs = true → charListLe bs as = true → as = bs
  | [], [], _, _ => rfl
  | [], _ :: _, _, h2 => by simp [charListLe] at h2
  | _ :: _, [], h1, _ => by simp [charListLe] at h1
  | a :: as, b :: bs, h1, h2 => by
    simp only [charListLe] at h1 h2
    rcases Nat.lt_trichotomy a.toNat b.toNat with hab | hab | hab
    · rw [if_neg (by omega : ¬ b.toNat < a.toNat), if_pos hab] at h2
      exact absurd h2 (by simp)
    · have hchar : a = b := Char.ext (UInt32.toNat.inj hab)
      rw [if_neg (by omega : ¬ a.toNat < b.toNat),
        if_neg (by omega : ¬ b.toNat < a.toNat)] at h1
      rw [if_neg (by omega : ¬ b.toNat < a.toNat),
        if_neg (by omega : ¬ a.toNat < b.toNat)] at h2
      rw [hchar, charListLe_antisymm as bs h1 h2]
    · rw [if_neg (by omega : ¬ a.toNat < b.toNat), if_pos hab] at h1
      exact absurd h1 (by simp)

theorem strLe_total (a b : String) :
    strLe a b = true ∨ strLe b a = true :=
  charListLe_total a.toList b.toList

theorem strLe_trans {a b c : String} (h1 : strLe a b = true)
    (h2 : strLe b c = true) : strLe a c = true :=
  charListLe_trans a.toList b.toList c.toList h1 h2

theorem strLe_antisymm {a b : String} (h1 : strLe a b = true)
    (h2 : strLe b a = true) : a = b :=
  String.toList_inj.mp (charListLe_antisymm a.toList b.toList h1 h2)

/-- `strLe` from a failed comparison the other way. -/
theorem strLe_of_not {a b : String} (h : ¬ strLe a b = true) :
    strLe b a = true :=
  (strLe_total a b).resolve_left h

/-! ## Supporting lemmas: sorting -/

theorem insertByKey_perm {α : Type} (key : α → String) (x : α) :
    ∀ l : List α, (insertByKey key x l).Perm (x :: l)
  | [] => List.Perm.refl _
  | y :: ys => by
    unfold insertByKey
    by_cases h : strLe (key x) (key y) = true
    · simp [h]
    · simp only [h, if_false]
      exact ((insertByKey_perm key x ys).cons y).trans (List.Perm.swap x y ys)

theorem sortByKey_perm {α : Type} (key : α → String) :
    ∀ l : List α, (sortByKey key l).Perm l
  | [] => List.Perm.refl _
  | x :: xs =>
    (insertByKey_perm key x (sortByKey key xs)).trans
      ((sortByKey_perm key xs).cons x)

theorem mem_sortByKey {α : Type} (key : α → String) (l : List α) (a : α) :
    a ∈ sortByKey key l ↔ a ∈ l :=
  (sortByKey_perm key l).mem_iff

theorem insertByKey_pairwise {α : Type} (key : α → String) (x : α) :
    ∀ l : List α, l.Pairwise (fun a b => strLe (key a) (key b) = true) →
      (insertByKey key x l).Pairwise (fun a b => strLe (key a) (key b) = true)
  | [], _ => List.pairwise_singleton _ x
  | y :: ys, h => by
    rcases List.pairwise_cons.mp h with ⟨hy, hys⟩
    unfold insertByKey
    by_cases hxy : strLe (key x) (key y) = true
    · rw [if_pos hxy]
      refine List.pairwise_cons.mpr ⟨?_, h⟩
      intro b hb
      rcases List.mem_cons.mp hb with rfl | hb
      · exact hxy
      · exact strLe_trans hxy (hy _ hb)
    · rw [if_neg hxy]
      refine List.pairwise_cons.mpr ⟨?_, insertByKey_pairwise key x ys hys⟩
      intro b hb
      rcases List.mem_cons.mp ((insertByKey_perm key x ys).mem_iff.mp hb)
        with rfl | hb
      · exact strLe_of_not hxy
      · exact hy _ hb

theorem sortByKey_pairwise {α : Type} (key : α → String) :
    ∀ l : List α,
      (sortByKey key l).Pairwise (fun a b => strLe (key a) (key b) = true)
  | [] => List.Pairwise.nil
  | x :: xs => insertByKey_pairwise key x _ (sortByKey_pairwise key xs)

/-! ## Supporting lemmas: lookup and collection -/

theorem lookupSnap_name {files : List FileSnapshot} {n : String}
    {s : FileSnapshot} (h : lookupSnap files n = some s) : s.name = n := by
  have := List.find?_some h
  exact of_decide_eq_true this

theorem lookupSnap_isSome_of_mem {files : List FileSnapshot} {n : String}
    (h : n ∈ namesOf files) : ∃ s, lookupSnap files n = some s := by
  rcases List.mem_map.mp h with ⟨s, hs, hn⟩
  have : (files.find? (fun t => t.name = n)).isSome := by
    apply List.find?_isSome.mpr
    exact ⟨s, hs, decide_eq_true hn⟩
  rcases Option.isSome_iff_exists.mp this with ⟨t, ht⟩
  exact ⟨t, ht⟩

theorem lookupSnap_mem {files : List FileSnapshot} {n : String}
    {s : FileSnapshot} (h : lookupSnap files n = some s) : s ∈ files :=
  List.mem_of_find?_eq_some h

theorem mem_collect_snapshots {files : List FileSnapshot}
    {names : List String} {s : FileSnapshot}
    (h : s ∈ collect_snapshots files names) : s.name ∈ names := by
  rcases List.mem_filterMap.mp h with ⟨n, hn, hf⟩
  exact (lookupSnap_name hf) ▸ hn

theorem collect_snapshots_mem_of {files : List FileSnapshot}
    {names : List String} {n : String} {s : FileSnapshot}
    (hn : n ∈ names) (h : lookupSnap files n = some s) :
    s ∈ collect_snapshots files names :=
  List.mem_filterMap.mpr ⟨n, hn, h⟩

/-! ## Claim C1 -/


/-- C1: the claim states that `to_delete` always equals
`set(A) − set(B)` plus the add-list adjustment, *in particular when
`set(B) − set(A)` is empty*.  The code violates this: with two local-only
files and an empty remote snapshot, `set(A) − set(B) = ["a", "b"]`, yet
`_apply_stop_add_lists` hits its early return (`if not raw_download_names`)
and the planner returns an empty `to_delete`.  (The repository's own test
suite marks this case as a known bug, `xfail` in
`tests/sync/test_diff_planner_mvp.py`.) -/
theorem C1_empty_raw_download_loses_to_delete :
    (namesOf c1_data.local_files).filter
      (fun n => n ∉ namesOf c1_data.remote_files) = ["a", "b"] ∧
    rawDownloadNames c1_data = [] ∧
    (DiffPlanner.run c1_data).1.to_delete = [] ∧
    (DiffPlanner.run c1_data).1.to_download = [] := by
  refine ⟨?_, ?_, ?_, ?_⟩ <;> rfl

/-! ## Claim C4 -/

theorem lookup_size_congr :
    ∀ (lf rf : List FileSnapshot),
      lf.map (fun s => (s.name, s.size)) = rf.map (fun s => (s.name, s.size)) →
      ∀ n, (lookupSnap lf n).map FileSnapshot.size
         = (lookupSnap rf n).map FileSnapshot.size
  | [], [], _, _ => rfl
  | [], _ :: _, h, _ => by simp at h
  | _ :: _, [], h, _ => by simp at h
  | s :: ls, t :: rt, h, n => by
    simp only [List.map_cons, List.cons.injEq, Prod.mk.injEq] at h
    obtain ⟨⟨hname, hsize⟩, htail⟩ := h
    by_cases hc : s.name = n
    · have hct : t.name = n := hname ▸ hc
      have hd1 : decide (s.name = n) = true := decide_eq_true hc
      have hd2 : decide (t.name = n) = true := decide_eq_true hct
      simp only [lookupSnap, List.find?_cons, hd1, hd2]
      simp [hsize]
    · have hct : ¬ t.name = n := hname ▸ hc
      have hd1 : decide (s.name = n) = false := decide_eq_false hc
      have hd2 : decide (t.name = n) = false := decide_eq_false hct
      simp only [lookupSnap, List.find?_cons, hd1, hd2]
      exact lookup_size_congr ls rt htail n

theorem get_mismatched_files_nil_of_size_eq
    (common : List String) (lf rf : List FileSnapshot)
    (h : ∀ n, (lookupSnap lf n).map FileSnapshot.size
            = (lookupSnap rf n).map FileSnapshot.size) :
    get_mismatched_files common lf rf = [] := by
  unfold get_mismatched_files
  rw [List.filterMap_eq_nil_iff]
  intro n _
  cases hl : lookupSnap lf n with
  | none => rfl
  | some l =>
    cases hr : lookupSnap rf n with
    | none =>
      exfalso
      have h2 := h n
      rw [hl, hr] at h2
      simp at h2
    | some r =>
      have h2 := h n
      rw [hl, hr] at h2
      have hsz : l.size = r.size := by simpa using h2
      simp [hsz]

/-- C4: on two snapshots with the same names and sizes the planner returns
an empty plan, a true validity flag, and a report consisting of exactly
one IMPORTANT_INFO "nothing to do" item (hence no WARNING or ERROR item);
being a pure function of its input, a second run returns the same
result. -/
theorem C4_identical_snapshots_nothing_to_do (data : DiffInput)
    (h : data.local_files.map (fun s => (s.name, s.size))
       = data.remote_files.map (fun s => (s.name, s.size))) :
    DiffPlanner.run data =
      (⟨[], []⟩, true,
        [⟨"", StatusReport.IMPORTANT_INFO, nothingToDoComment⟩]) := by
  have hnames : namesOf data.local_files = namesOf data.remote_files := by
    have hl : namesOf data.local_files
        = (data.local_files.map (fun s => (s.name, s.size))).map Prod.fst := by
      simp [namesOf]
    have hr : namesOf data.remote_files
        = (data.remote_files.map (fun s => (s.name, s.size))).map Prod.fst := by
      simp [namesOf]
    rw [hl, hr, h]
  have hraw : rawDownloadNames data = [] := by
    unfold rawDownloadNames compute_sync_name_sets
    rw [List.filter_eq_nil_iff]
    intro n hn
    simp only [decide_not, Bool.not_eq_true', decide_eq_false_iff_not,
      Decidable.not_not]
    exact hnames ▸ hn
  have hmm : get_mismatched_files
      (compute_sync_name_sets (namesOf data.local_files)
        (namesOf data.remote_files)).1 data.local_files data.remote_files = [] :=
    get_mismatched_files_nil_of_size_eq _ _ _
      (lookup_size_congr _ _ h)
  have hsp : build_sync_plan data = ⟨[], [], [], []⟩ := by
    have happ : apply_stop_add_lists data
        (compute_sync_name_sets (namesOf data.local_files)
          (namesOf data.remote_files)).2.2
        (compute_sync_name_sets (namesOf data.local_files)
          (namesOf data.remote_files)).2.1
        (namesOf data.remote_files) = ([], [], []) := by
      have h0 : (compute_sync_name_sets (namesOf data.local_files)
          (namesOf data.remote_files)).2.2 = [] := hraw
      rw [h0]
      unfold apply_stop_add_lists
      simp
    simp only [build_sync_plan]
    rw [happ]
    simp [collect_snapshots, hmm]
  simp only [DiffPlanner.run]
  rw [hsp]
  simp [build_plan, build_report, collect_snapshots, sortByName, sortByKey]

/-- Witness for C4 at a concrete input. -/
theorem C4_witness :
    DiffPlanner.run
      ⟨[], [], ModeDiffPlan.NOT_USE_STOP_LIST,
        [⟨"a", some 5, none⟩], [⟨"a", some 5, some "h"⟩]⟩ =
      (⟨[], []⟩, true,
        [⟨"", StatusReport.IMPORTANT_INFO, nothingToDoComment⟩]) :=
  C4_identical_snapshots_nothing_to_do _ (by rfl)

/-! ## Claim C2 -/


theorem lookupSnap_setSnapHash (f : FileSnapshot → Option String) :
    ∀ (l : List FileSnapshot) (n : String),
      lookupSnap (setSnapHash f l) n
        = (lookupSnap l n).map (fun s => ⟨s.name, s.size, f s⟩)
  | [], _ => rfl
  | s :: ls, n => by
    simp only [setSnapHash, List.map_cons, lookupSnap, List.find?_cons]
    cases hd : decide (s.name = n) with
    | false =>
      simp only [hd]
      exact lookupSnap_setSnapHash f ls n
    | true => simp [hd]

theorem get_mismatched_hash_invariant (common : List String)
    (lf rf : List FileSnapshot) (f g : FileSnapshot → Option String) :
    get_mismatched_files common (setSnapHash f lf) (setSnapHash g rf)
      = get_mismatched_files common lf rf := by
  have hfun : ∀ n : String,
      (match lookupSnap (setSnapHash f lf) n, lookupSnap (setSnapHash g rf) n with
        | some l, some r =>
          if l.size ≠ r.size then some (⟨n, none, none⟩ : FileSnapshot) else none
        | _, _ => none)
      = (match lookupSnap lf n, lookupSnap rf n with
        | some l, some r =>
          if l.size ≠ r.size then some (⟨n, none, none⟩ : FileSnapshot) else none
        | _, _ => none) := by
    intro n
    rw [lookupSnap_setSnapHash, lookupSnap_setSnapHash]
    cases lookupSnap lf n <;> cases lookupSnap rf n <;> simp
  unfold get_mismatched_files
  induction common with
  | nil => rfl
  | cons n ns ih => simp only [List.filterMap_cons]; rw [hfun n, ih]


theorem mismatch_mem_mismatchedOf (data : DiffInput) (n : String)
    (ls rs : FileSnapshot)
    (hl : lookupSnap data.local_files n = some ls)
    (hr : lookupSnap data.remote_files n = some rs)
    (hne : ls.size ≠ rs.size) :
    (⟨n, none, none⟩ : FileSnapshot) ∈ mismatchedOf data := by
  have hnl : n ∈ namesOf data.local_files :=
    List.mem_map.mpr ⟨ls, lookupSnap_mem hl, lookupSnap_name hl⟩
  have hnr : n ∈ namesOf data.remote_files :=
    List.mem_map.mpr ⟨rs, lookupSnap_mem hr, lookupSnap_name hr⟩
  have hcommon : n ∈ (compute_sync_name_sets (namesOf data.local_files)
      (namesOf data.remote_files)).1 := by
    unfold compute_sync_name_sets
    exact List.mem_filter.mpr ⟨hnl, decide_eq_true hnr⟩
  exact List.mem_filterMap.mpr ⟨n, hcommon, by rw [hl, hr]; simp [hne]⟩

theorem run_to_delete_eq (data : DiffInput) :
    (DiffPlanner.run data).1.to_delete
      = sortByName ((build_sync_plan data).to_delete
          ++ (build_sync_plan data).mismatched) := rfl

theorem run_to_download_eq (data : DiffInput) :
    (DiffPlanner.run data).1.to_download
      = sortByName ((build_sync_plan data).to_download
          ++ (build_sync_plan data).mismatched) := rfl

/-- C2: for every common name the planner compares only the size fields
(the mismatch computation is invariant under arbitrary changes of the
hash fields), a size mismatch puts the name into both `to_delete` and
`to_download`, both result lists are sorted by name, and the concrete
scenario `local={x.bin:10}`, `remote={x.bin:999}` yields `x.bin` in both
lists. -/
theorem C2_mismatch_size_only_in_both_lists :
    (∀ (data : DiffInput) (n : String) (ls rs : FileSnapshot),
        lookupSnap data.local_files n = some ls →
        lookupSnap data.remote_files n = some rs →
        ls.size ≠ rs.size →
        n ∈ namesOf (DiffPlanner.run data).1.to_delete ∧
        n ∈ namesOf (DiffPlanner.run data).1.to_download) ∧
    (∀ data : DiffInput,
        ((DiffPlanner.run data).1.to_delete).Pairwise
          (fun a b => strLe a.name b.name = true) ∧
        ((DiffPlanner.run data).1.to_download).Pairwise
          (fun a b => strLe a.name b.name = true)) ∧
    (namesOf (DiffPlanner.run c2_data).1.to_delete = ["x.bin"] ∧
     namesOf (DiffPlanner.run c2_data).1.to_download = ["x.bin"]) ∧
    (∀ (common : List String) (lf rf : List FileSnapshot)
        (f g : FileSnapshot → Option String),
        get_mismatched_files common (setSnapHash f lf) (setSnapHash g rf)
          = get_mismatched_files common lf rf) := by
  refine ⟨?_, ?_, ⟨rfl, rfl⟩, get_mismatched_hash_invariant⟩
  · intro data n ls rs hl hr hne
    have hmm := mismatch_mem_mismatchedOf data n ls rs hl hr hne
    constructor
    · rw [run_to_delete_eq]
      exact List.mem_map.mpr ⟨⟨n, none, none⟩,
        (mem_sortByKey _ _ _).mpr (List.mem_append_right _ hmm), rfl⟩
    · rw [run_to_download_eq]
      exact List.mem_map.mpr ⟨⟨n, none, none⟩,
        (mem_sortByKey _ _ _).mpr (List.mem_append_right _ hmm), rfl⟩
  · intro data
    exact ⟨sortByKey_pairwise _ _, sortByKey_pairwise _ _⟩

/-- Witness for C2: the universally quantified part applied at scenario 2. -/
theorem C2_witness :
    "x.bin" ∈ namesOf (DiffPlanner.run c2_data).1.to_delete ∧
    "x.bin" ∈ namesOf (DiffPlanner.run c2_data).1.to_download :=
  C2_mismatch_size_only_in_both_lists.1 c2_data "x.bin"
    ⟨"x.bin", some 10, none⟩ ⟨"x.bin", some 999, none⟩ rfl rfl (by decide)

/-! ## Claim C3 -/


/-- C3 fails as stated: with stop-list mode enabled, `n_1.zip` is a
download candidate (via the add-list) whose component key `n.zip` is in
the stop list, so the claim demands its absence from `to_download` —
yet it appears there, re-injected by the size-mismatch rule, because the
stop-list filter runs only over the candidate set and not over the
mismatched common names merged in by `_build_plan`. -/
theorem C3_counterexample :
    c3_data.mode_stop_list = ModeDiffPlan.USE_STOP_LIST ∧
    "n_1.zip" ∈ downloadCandidatesOf c3_data ∧
    name_file_to_name_component "n_1.zip" ∈ c3_data.stop_list.map pyStrip ∧
    "n_1.zip" ∈ namesOf (DiffPlanner.run c3_data).1.to_download := by
  refine ⟨rfl, by decide, by decide, ?_⟩
  have hlist : namesOf (DiffPlanner.run c3_data).1.to_download
      = ["m_1.zip", "n_1.zip"] := rfl
  rw [hlist]
  decide

theorem run_is_valid_eq (data : DiffInput) :
    (DiffPlanner.run data).2.1
      = (build_sync_plan data).denied_download.isEmpty := rfl

theorem run_report_eq_of_denied_ne (data : DiffInput)
    (h : (build_sync_plan data).denied_download ≠ []) :
    (DiffPlanner.run data).2.2
      = build_report (build_sync_plan data).denied_download := by
  have hfalse : (build_sync_plan data).denied_download.isEmpty = false := by
    cases hd : (build_sync_plan data).denied_download with
    | nil => exact absurd hd h
    | cons a l => rfl
  simp only [DiffPlanner.run, hfalse, Bool.false_and, Bool.if_false_left]
  simp

theorem build_sync_plan_denied_eq (data : DiffInput) :
    (build_sync_plan data).denied_download
      = (apply_stop_add_lists data (rawDownloadNames data)
          ((compute_sync_name_sets (namesOf data.local_files)
            (namesOf data.remote_files)).2.1)
          (namesOf data.remote_files)).2.2 := rfl

theorem build_sync_plan_to_download_eq (data : DiffInput) :
    (build_sync_plan data).to_download
      = collect_snapshots data.remote_files
          (apply_stop_add_lists data (rawDownloadNames data)
            ((compute_sync_name_sets (namesOf data.local_files)
              (namesOf data.remote_files)).2.1)
            (namesOf data.remote_files)).1 := rfl

theorem apply_stop_lists_denied (data : DiffInput)
    (hne : (rawDownloadNames data).isEmpty = false)
    (hmode : data.mode_stop_list = ModeDiffPlan.USE_STOP_LIST)
    (rawDel : List String) :
    (apply_stop_add_lists data (rawDownloadNames data) rawDel
        (namesOf data.remote_files)).2.2
      = get_files_excluded_by_stop_list data.stop_list
          (downloadCandidates data.add_list (rawDownloadNames data)
            (namesOf data.remote_files)) := by
  simp only [apply_stop_add_lists, hne, hmode, Bool.false_eq_true, if_false,
    if_true, reduceIte]

theorem apply_stop_lists_downloads (data : DiffInput)
    (hne : (rawDownloadNames data).isEmpty = false)
    (hmode : data.mode_stop_list = ModeDiffPlan.USE_STOP_LIST)
    (rawDel : List String) :
    (apply_stop_add_lists data (rawDownloadNames data) rawDel
        (namesOf data.remote_files)).1
      = (downloadCandidates data.add_list (rawDownloadNames data)
          (namesOf data.remote_files)).filter
          (fun n => n ∉ get_files_excluded_by_stop_list data.stop_list
            (downloadCandidates data.add_list (rawDownloadNames data)
              (namesOf data.remote_files))) := by
  simp only [apply_stop_add_lists, hne, hmode, Bool.false_eq_true, if_false,
    if_true, reduceIte]

theorem mem_excluded_iff (stopList downloads : List String) (c : String) :
    c ∈ get_files_excluded_by_stop_list stopList downloads ↔
      c ∈ downloads ∧
        name_file_to_name_component c ∈ stopList.map pyStrip := by
  unfold get_files_excluded_by_stop_list sortStrings
  rw [List.mem_filter, mem_sortByKey]
  constructor
  · rintro ⟨h1, h2⟩
    exact ⟨h1, of_decide_eq_true h2⟩
  · rintro ⟨h1, h2⟩
    exact ⟨h1, decide_eq_true h2⟩

theorem downloadCandidates_nodup (addList rawDl remote : List String)
    (h : rawDl.Nodup) : (downloadCandidates addList rawDl remote).Nodup := by
  unfold downloadCandidates
  refine List.Nodup.append h (((addList.nodup_dedup).filter _).filter _) ?_
  intro a ha hb
  have := (List.mem_filter.mp hb).2
  simp only [decide_not, Bool.not_eq_true', decide_eq_false_iff_not] at this
  exact this ha

theorem rawDownloadNames_nodup (data : DiffInput)
    (h : (namesOf data.remote_files).Nodup) : (rawDownloadNames data).Nodup :=
  h.filter _

theorem excluded_nodup (stopList downloads : List String)
    (h : downloads.Nodup) :
    (get_files_excluded_by_stop_list stopList downloads).Nodup := by
  unfold get_files_excluded_by_stop_list
  exact (((sortByKey_perm id downloads).nodup_iff).mpr h).filter _

/-- C3 amended: with stop-list mode enabled, every download *candidate*
(member of the planner's `result_downloads`, which is empty when
`remote − local` is empty) whose component key is in the (whitespace-
stripped) stop list is excluded: the report carries exactly one WARNING
item naming each such excluded file, every report item is a WARNING,
and `is_valid` is false exactly when at least one candidate was
excluded; the excluded candidate is moreover absent from the returned
`to_download` list **unless it is also one of the size-mismatched
common names** (those are merged into both lists after the stop-list
filter). -/
theorem C3_amended_stop_list_exclusion :
    (∀ (data : DiffInput) (c : String),
        data.mode_stop_list = ModeDiffPlan.USE_STOP_LIST →
        (namesOf data.remote_files).Nodup →
        c ∈ downloadCandidatesOf data →
        name_file_to_name_component c ∈ data.stop_list.map pyStrip →
        (c ∉ namesOf (mismatchedOf data) →
          c ∉ namesOf (DiffPlanner.run data).1.to_download) ∧
        ((DiffPlanner.run data).2.2.filter (fun it => it.name == c)).length = 1 ∧
        (∀ it ∈ (DiffPlanner.run data).2.2,
          it.status = StatusReport.WARNING) ∧
        (DiffPlanner.run data).2.1 = false) ∧
    (∀ data : DiffInput,
        ((DiffPlanner.run data).2.1 = false ↔ deniedOf data ≠ [])) := by
  constructor
  · intro data c hmode hnr hc hkey
    -- unpack the candidate hypothesis
    have hpair : (rawDownloadNames data).isEmpty = false ∧
        c ∈ downloadCandidates data.add_list (rawDownloadNames data)
          (namesOf data.remote_files) := by
      by_cases h : (rawDownloadNames data).isEmpty = true
      · rw [downloadCandidatesOf, if_pos h] at hc
        exact absurd hc (List.not_mem_nil c)
      · rw [downloadCandidatesOf, if_neg h] at hc
        exact ⟨Bool.not_eq_true _ ▸ h, hc⟩
    obtain ⟨hne, hcand⟩ := hpair
    have hdeq := build_sync_plan_denied_eq data
    rw [apply_stop_lists_denied data hne hmode] at hdeq
    have hcd : c ∈ (build_sync_plan data).denied_download := by
      rw [hdeq]
      exact (mem_excluded_iff _ _ _).mpr ⟨hcand, hkey⟩
    have hdne : (build_sync_plan data).denied_download ≠ [] :=
      List.ne_nil_of_mem hcd
    refine ⟨?_, ?_, ?_, ?_⟩
    · -- unless size-mismatched, c is not among the final to_download names
      intro hmm hmem
      rw [run_to_download_eq] at hmem
      rcases List.mem_map.mp hmem with ⟨s, hs, hsname⟩
      rcases List.mem_append.mp ((mem_sortByKey _ _ _).mp hs) with hs | hs
      · -- s comes from the filtered download names
        rw [build_sync_plan_to_download_eq,
          apply_stop_lists_downloads data hne hmode] at hs
        have hsn := mem_collect_snapshots hs
        have := (List.mem_filter.mp hsn).2
        rw [hsname] at this
        simp only [decide_not, Bool.not_eq_true', decide_eq_false_iff_not] at this
        rw [hdeq] at hcd
        exact this hcd
      · -- s is one of the mismatched snapshots
        exact hmm (List.mem_map.mpr ⟨s, hs, hsname⟩)
    · -- exactly one WARNING names c
      have hdnodup : ((build_sync_plan data).denied_download).Nodup := by
        rw [hdeq]
        exact excluded_nodup _ _
          (downloadCandidates_nodup _ _ _ (rawDownloadNames_nodup data hnr))
      rw [run_report_eq_of_denied_ne data hdne]
      unfold build_report
      rw [List.filter_map, List.length_map]
      have hcomp : ((fun it : ReportItem => it.name == c) ∘
          (fun n => (⟨n, StatusReport.WARNING, stopListComment⟩ : ReportItem)))
          = fun n => n == c := by
        funext n
        rfl
      rw [hcomp, ← List.countP_eq_length_filter]
      have hcnt : (build_sync_plan data).denied_download.countP (fun n => n == c)
          = (build_sync_plan data).denied_download.count c := rfl
      rw [hcnt]
      exact List.count_eq_one_of_mem hdnodup hcd
    · -- every report item is a WARNING
      rw [run_report_eq_of_denied_ne data hdne]
      intro it hit
      rcases List.mem_map.mp hit with ⟨n, _, rfl⟩
      rfl
    · -- validity flag is false
      rw [run_is_valid_eq]
      cases hd : (build_sync_plan data).denied_download with
      | nil => exact absurd hd hdne
      | cons a l => rfl
  · intro data
    rw [run_is_valid_eq]
    cases hd : (build_sync_plan data).denied_download with
    | nil => simp [deniedOf, hd]
    | cons a l => simp [deniedOf, hd]

/-- Witness for C3 (amended): the first part applied at the concrete
Scenario 3 input of the specification (stop list `["AAA.zip"]`,
remote-only `AAA_123.zip` and `BBB_1.zip`), and again at `c3_data`,
whose excluded candidate `n_1.zip` is size-mismatched and therefore
still gets its one WARNING although it stays in `to_download`. -/
theorem C3_amended_witness :
    "AAA_123.zip" ∉ namesOf (DiffPlanner.run
      ⟨[], ["AAA.zip"], ModeDiffPlan.USE_STOP_LIST, [],
        [⟨"AAA_123.zip", some 10, none⟩, ⟨"BBB_1.zip", some 10, none⟩]⟩).1.to_download ∧
    ((DiffPlanner.run
      ⟨[], ["AAA.zip"], ModeDiffPlan.USE_STOP_LIST, [],
        [⟨"AAA_123.zip", some 10, none⟩, ⟨"BBB_1.zip", some 10, none⟩]⟩).2.2.filter
      (fun it => it.name == "AAA_123.zip")).length = 1 ∧
    ((DiffPlanner.run c3_data).2.2.filter
      (fun it => it.name == "n_1.zip")).length = 1 := by
  have h := C3_amended_stop_list_exclusion.1
    ⟨[], ["AAA.zip"], ModeDiffPlan.USE_STOP_LIST, [],
      [⟨"AAA_123.zip", some 10, none⟩, ⟨"BBB_1.zip", some 10, none⟩]⟩
    "AAA_123.zip" rfl (by decide) (by decide) (by decide)
  have h2 := C3_amended_stop_list_exclusion.1 c3_data "n_1.zip"
    rfl (by decide) (by decide) (by decide)
  exact ⟨h.1 (by decide), h.2.1, h2.2.1⟩

/-! ## Claim C9 -/

theorem mem_bumpCount_keys : ∀ (m : List (String × Nat)) (j k : String),
    k ∈ (bumpCount m j).map Prod.fst ↔ k ∈ m.map Prod.fst ∨ k = j
  | [], j, k => by simp [bumpCount]
  | (a, c) :: m, j, k => by
    by_cases h : a = j
    · subst h
      simp [bumpCount]
      tauto
    · simp only [bumpCount, if_neg h, List.map_cons, List.mem_cons,
        mem_bumpCount_keys m j k]
      tauto

theorem mem_dupScan_keys : ∀ (l : List String) (prev : Option String)
    (m : List (String × Nat)) (k : String),
    k ∈ (dupScan l prev m).map Prod.fst ↔
      k ∈ m.map Prod.fst ∨ adjDupB prev l k = true
  | [], prev, m, k => by simp [dupScan, adjDupB]
  | x :: xs, prev, m, k => by
    by_cases hp : prev = some x
    · subst hp
      have hstep : dupScan (x :: xs) (some x) m
          = dupScan xs (some x) (bumpCount m x) := by
        simp [dupScan]
      have hadj : adjDupB (some x) (x :: xs) k
          = ((x == k) || adjDupB (some x) xs k) := by
        simp [adjDupB]
      rw [hstep, mem_dupScan_keys xs (some x) (bumpCount m x) k,
        mem_bumpCount_keys, hadj]
      simp only [Bool.or_eq_true, beq_iff_eq]
      constructor
      · rintro ((h | h) | h)
        · exact Or.inl h
        · exact Or.inr (Or.inl h.symm)
        · exact Or.inr (Or.inr h)
      · rintro (h | h | h)
        · exact Or.inl (Or.inl h)
        · exact Or.inl (Or.inr h.symm)
        · exact Or.inr h
    · have hb : (prev == some x) = false := by
        simpa using hp
      have hstep : dupScan (x :: xs) prev m = dupScan xs (some x) m := by
        simp [dupScan, hp]
      have hadj : adjDupB prev (x :: xs) k = adjDupB (some x) xs k := by
        simp [adjDupB, hb]
      rw [hstep, hadj, mem_dupScan_keys xs (some x) m k]

theorem adjDup_sorted_count : ∀ (l : List String),
    l.Pairwise (fun a b => strLe a b = true) →
    ∀ (prev : Option String) (k : String),
    (∀ p, prev = some p → ∀ y ∈ l, strLe p y = true) →
    (adjDupB prev l k = true ↔
      2 ≤ l.count k ∨ (prev = some k ∧ 1 ≤ l.count k))
  | [], _, prev, k, _ => by simp [adjDupB]
  | x :: xs, h, prev, k, hprev => by
    rcases List.pairwise_cons.mp h with ⟨hx, hxs⟩
    have ih := adjDup_sorted_count xs hxs (some x) k
      (by
        intro p hp y hy
        cases Option.some.inj hp
        exact hx y hy)
    by_cases hxk : x = k
    · subst hxk
      have ih2 : adjDupB (some x) xs x = true ↔ 1 ≤ xs.count x := by
        rw [ih]
        constructor
        · rintro (h1 | ⟨_, h1⟩) <;> omega
        · intro h1
          exact Or.inr ⟨rfl, h1⟩
      have hadj : adjDupB prev (x :: xs) x
          = ((prev == some x) || adjDupB (some x) xs x) := by
        simp [adjDupB]
      rw [hadj]
      simp only [Bool.or_eq_true, beq_iff_eq, ih2, List.count_cons_self]
      constructor
      · rintro (hp | hc)
        · exact Or.inr ⟨hp, by omega⟩
        · exact Or.inl (by omega)
      · rintro (hc | ⟨hp, _⟩)
        · exact Or.inr (by omega)
        · exact Or.inl hp
    · have hbk : (x == k) = false := by
        simpa using hxk
      have hkx : k ≠ x := fun hh => hxk hh.symm
      have hcount : (x :: xs).count k = xs.count k :=
        List.count_cons_of_ne hkx _
      have ih2 : adjDupB (some x) xs k = true ↔ 2 ≤ xs.count k := by
        rw [ih]
        constructor
        · rintro (h1 | ⟨hsome, _⟩)
          · exact h1
          · exact absurd (Option.some.inj hsome) hxk
        · exact Or.inl
      simp only [adjDupB, hbk, Bool.and_false, Bool.false_or, ih2, hcount]
      constructor
      · exact Or.inl
      · rintro (hc | ⟨hp, h1⟩)
        · exact hc
        · exfalso
          have hkmem : k ∈ xs := by
            rw [← List.count_pos_iff]
            omega
          have h1k : strLe k x = true := by
            subst hp
            exact hprev k rfl x (List.mem_cons_self x xs)
          have h2k : strLe x k = true := hx k hkmem
          exact hxk (strLe_antisymm h2k h1k)

theorem mem_dup_keys_iff (comps : List String) (k : String) :
    k ∈ (get_dublicate_component comps).map Prod.fst ↔ 2 ≤ comps.count k := by
  unfold get_dublicate_component
  rw [mem_dupScan_keys]
  have hsorted : (sortStrings comps).Pairwise (fun a b => strLe a b = true) :=
    sortByKey_pairwise id comps
  rw [adjDup_sorted_count (sortStrings comps) hsorted none k
    (by intro p hp; cases hp)]
  have hperm : (sortStrings comps).count k = comps.count k :=
    (sortByKey_perm id comps).count_eq k
  rw [hperm]
  simp only [List.map_nil, List.not_mem_nil, false_or]
  constructor
  · rintro (h | ⟨hnone, _⟩)
    · exact h
    · cases hnone
  · exact Or.inl

theorem repositoryValidator_run_eq (names : List String) :
    RepositoryValidator.run names
      = (get_dublicate_component (get_component_names names)).map
          (fun p => ⟨p.1, StatusReport.ERROR,
            "Компонент присутситвует в репозитории "
              ++ toString (p.2 + 1) ++ " раза/раз"⟩) := rfl

/-- C9 fails as stated: the claim demands the component keys be derived
by the same rule as the stop-list key (`name_file_to_name_component`,
which keeps the extension and keeps suffix-less names whole).  For
`["a_1.txt", "a_2.zip"]` those keys (`a.txt`, `a.zip`) are pairwise
distinct, so the claimed report is empty — but the validator drops the
extension (it keys on `Path(...).stem`), derives the key `a` twice, and
emits an ERROR item. -/
theorem C9_counterexample :
    ((["a_1.txt", "a_2.zip"].map name_file_to_name_component).Nodup) ∧
    RepositoryValidator.run ["a_1.txt", "a_2.zip"]
      = [⟨"a", StatusReport.ERROR,
          "Компонент присутситвует в репозитории 2 раза/раз"⟩] := by
  constructor <;> decide

/-- C9 amended: the validator derives each name's component key by
taking the *stem* (extension dropped) and splitting at the last
underscore, keeping only names whose tail is all digits (the key is the
prefix before that underscore, so `a_1.txt` and `a_2.zip` both map to
`a`, and suffix-less names produce no key at all); its report contains
an ERROR item for exactly those keys occurring more than once among the
so-derived keys, and is empty when those keys are unique. -/
theorem C9_amended_duplicate_keys :
    (∀ (names : List String) (k : String),
        (∃ it ∈ RepositoryValidator.run names, it.name = k) ↔
          2 ≤ (get_component_names names).count k) ∧
    (∀ names : List String, ∀ it ∈ RepositoryValidator.run names,
        it.status = StatusReport.ERROR) ∧
    (∀ names : List String, (get_component_names names).Nodup →
        RepositoryValidator.run names = []) := by
  refine ⟨?_, ?_, ?_⟩
  · intro names k
    rw [repositoryValidator_run_eq]
    constructor
    · rintro ⟨it, hit, hname⟩
      rcases List.mem_map.mp hit with ⟨p, hp, rfl⟩
      have hmem : p.1 ∈ (get_dublicate_component
          (get_component_names names)).map Prod.fst :=
        List.mem_map.mpr ⟨p, hp, rfl⟩
      rw [mem_dup_keys_iff] at hmem
      exact hname ▸ hmem
    · intro hk
      rcases List.mem_map.mp ((mem_dup_keys_iff _ k).mpr hk)
        with ⟨p, hp, hk1⟩
      exact ⟨_, List.mem_map.mpr ⟨p, hp, rfl⟩, hk1⟩
  · intro names it hit
    rw [repositoryValidator_run_eq] at hit
    rcases List.mem_map.mp hit with ⟨p, _, rfl⟩
    rfl
  · intro names hnodup
    rw [repositoryValidator_run_eq, List.map_eq_nil_iff,
      List.eq_nil_iff_forall_not_mem]
    intro p hp
    have hk : p.1 ∈ (get_dublicate_component
        (get_component_names names)).map Prod.fst :=
      List.mem_map.mpr ⟨p, hp, rfl⟩
    rw [mem_dup_keys_iff] at hk
    have := List.nodup_iff_count_le_one.mp hnodup p.1
    omega

/-- Witness for C9 (amended): a repository whose derived keys are
unique yields an empty report. -/
theorem C9_amended_witness :
    RepositoryValidator.run ["b_1.txt"] = [] :=
  C9_amended_duplicate_keys.2.2 ["b_1.txt"] (by decide)

/-! ## Claims C5 and C10 -/

theorem retrLoop_first_fetch (net : Nat → RetrStep) :
    ∀ (fuel i len : Nat) (lastE : Option String), 0 < fuel →
      ((retrLoop net fuel i len lastE).2.1).head? = some len
  | 0, _, _, _, h => absurd h (by omega)
  | fuel + 1, i, len, lastE, _ => by
    simp only [retrLoop]
    cases h : (net i).outcome <;> simp [h]

theorem download_attempt_opens (rc : Nat) (net : Nat → RetrStep)
    (len offset : Nat) :
    (download_attempt rc net len offset).opens
      = [((if offset ≠ 0 then FileMode.append else FileMode.write),
          offset)] := by
  by_cases h : offset ≠ 0
  · simp only [download_attempt, if_pos h]
  · simp only [download_attempt, if_neg h]

theorem download_attempt_fetches_head_append (rc : Nat)
    (net : Nat → RetrStep) (len offset : Nat) (hrc : 0 < rc)
    (hoff : offset ≠ 0) :
    (download_attempt rc net len offset).fetches.head? = some len := by
  simp only [download_attempt, if_pos hoff]
  exact retrLoop_first_fetch net rc 0 len none hrc

theorem download_attempt_fetches_head_write (rc : Nat)
    (net : Nat → RetrStep) (len : Nat) (hrc : 0 < rc) :
    (download_attempt rc net len 0).fetches.head? = some 0 := by
  have h : download_attempt rc net len 0
      = ⟨(retrLoop net rc 0 0 none).1, [(FileMode.write, 0)],
         (retrLoop net rc 0 0 none).2.1, (retrLoop net rc 0 0 none).2.2⟩ :=
    rfl
  rw [h]
  exact retrLoop_first_fetch net rc 0 0 none hrc

theorem finish_download_ok (expected : Nat) (a : DownloadOut)
    (h : (finish_download expected a).error = none) :
    (finish_download expected a).finalLen = expected := by
  by_cases hc : a.finalLen = expected
  · unfold finish_download
    rw [if_pos hc]
    exact hc
  · unfold finish_download at h
    rw [if_neg hc] at h
    simp at h

theorem resume_or_raise_ok (rc : Nat) (net2 : Nat → RetrStep)
    (expected : Nat) (e : String) (a1 : DownloadOut)
    (h : (resume_or_raise rc net2 expected e a1).error = none) :
    (resume_or_raise rc net2 expected e a1).finalLen = expected := by
  unfold resume_or_raise at h ⊢
  by_cases h0 : (if a1.finalLen > expected then 0 else a1.finalLen) = 0
  · rw [if_pos h0] at h
    simp at h
  · rw [if_neg h0] at h ⊢
    cases h2 : (download_attempt rc net2 a1.finalLen
        (if a1.finalLen > expected then 0 else a1.finalLen)).error with
    | some e2 =>
      simp only [h2] at h
      simp at h
    | none =>
      simp only [h2] at h ⊢
      exact finish_download_ok expected _ h

theorem download_file_ok_finalLen (rc : Nat) (net1 net2 : Nat → RetrStep)
    (R L : Nat)
    (h : (download_file rc net1 net2 (some R) L).error = none) :
    (download_file rc net1 net2 (some R) L).finalLen = R := by
  by_cases hLR : L = R
  · subst hLR
    simp [download_file]
  · simp only [download_file, if_neg hLR] at h ⊢
    cases ha : (download_attempt rc net1 (if L > R then 0 else L)
        (if L > R then 0 else L)).error with
    | none =>
      simp only [ha] at h ⊢
      exact finish_download_ok R _ h
    | some e =>
      simp only [ha] at h ⊢
      exact resume_or_raise_ok rc net2 R e _ h

theorem finish_download_opens (expected : Nat) (a : DownloadOut) :
    (finish_download expected a).opens = a.opens := by
  unfold finish_download
  by_cases hc : a.finalLen = expected
  · rw [if_pos hc]
  · rw [if_neg hc]

theorem finish_download_fetches (expected : Nat) (a : DownloadOut) :
    (finish_download expected a).fetches = a.fetches := by
  unfold finish_download
  by_cases hc : a.finalLen = expected
  · rw [if_pos hc]
  · rw [if_neg hc]

theorem resume_or_raise_opens_head (rc : Nat) (net2 : Nat → RetrStep)
    (expected : Nat) (e : String) (a1 : DownloadOut) (x : FileMode × Nat)
    (hx : a1.opens.head? = some x) :
    (resume_or_raise rc net2 expected e a1).opens.head? = some x := by
  unfold resume_or_raise
  by_cases h0 : (if a1.finalLen > expected then 0 else a1.finalLen) = 0
  · rw [if_pos h0]
    exact hx
  · rw [if_neg h0]
    cases h2 : (download_attempt rc net2 a1.finalLen
        (if a1.finalLen > expected then 0 else a1.finalLen)).error <;>
      simp only [h2] <;>
      cases ho : a1.opens with
      | nil => rw [ho] at hx; simp at hx
      | cons y ys =>
        rw [ho] at hx
        simpa using hx

theorem resume_or_raise_fetches_head (rc : Nat) (net2 : Nat → RetrStep)
    (expected : Nat) (e : String) (a1 : DownloadOut) (x : Nat)
    (hx : a1.fetches.head? = some x) :
    (resume_or_raise rc net2 expected e a1).fetches.head? = some x := by
  unfold resume_or_raise
  by_cases h0 : (if a1.finalLen > expected then 0 else a1.finalLen) = 0
  · rw [if_pos h0]
    exact hx
  · rw [if_neg h0]
    cases h2 : (download_attempt rc net2 a1.finalLen
        (if a1.finalLen > expected then 0 else a1.finalLen)).error <;>
      simp only [h2] <;>
      cases ho : a1.fetches with
      | nil => rw [ho] at hx; simp at hx
      | cons y ys =>
        rw [ho] at hx
        simpa using hx

/-- C5 fails as stated on two points.  (1) It demands that for every
pre-existing local file of length `0 < L ≤ R` "the fetch is issued with
byte offset L": at `L = R` (here 5 = 5) `download_file` returns
immediately and no fetch and no open happens at all.  (2) It demands
that `download_file` "returns normally if and only if the final local
size equals R": with a network that delivers all remaining bytes but
then times out, and a resume attempt that also times out, the final
local size equals `R = 5` and yet a download error is raised. -/
theorem C5_counterexample :
    ((0:Nat) < 5 ∧ (5:Nat) ≤ 5 ∧
      (download_file 1 constOkNet constOkNet (some 5) 5).fetches = [] ∧
      (download_file 1 constOkNet constOkNet (some 5) 5).opens = []) ∧
    ((download_file 1 tempNet3 tempNet0 (some 5) 2).error.isSome = true ∧
      (download_file 1 tempNet3 tempNet0 (some 5) 2).finalLen = 5) := by
  refine ⟨⟨by omega, by omega, rfl, rfl⟩, rfl, rfl⟩

/-- C5 amended: with a positive attempt budget, a pre-existing local
file of length `0 < L < R` makes `download_file` open the file in
append mode with offset `L` and issue its first fetch at offset `L`
(later fetches resume from the then-current length); a local file
longer than the server file (`L > R`) makes it restart with a
write/truncate open at offset zero and a first fetch at offset zero;
returning normally implies the final local size equals `R` (a size
mismatch always raises), while `L = R` returns immediately with no
fetch, and an error can be raised even when the final size reached `R`. -/
theorem C5_resume_protocol :
    (∀ (rc : Nat) (net1 net2 : Nat → RetrStep) (R L : Nat),
        0 < L → L < R → 0 < rc →
        (download_file rc net1 net2 (some R) L).opens.head?
            = some (FileMode.append, L) ∧
        (download_file rc net1 net2 (some R) L).fetches.head?
            = some L) ∧
    (∀ (rc : Nat) (net1 net2 : Nat → RetrStep) (R L : Nat),
        R < L → 0 < rc →
        (download_file rc net1 net2 (some R) L).opens.head?
            = some (FileMode.write, 0) ∧
        (download_file rc net1 net2 (some R) L).fetches.head?
            = some 0) ∧
    (∀ (rc : Nat) (net1 net2 : Nat → RetrStep) (R L : Nat),
        (download_file rc net1 net2 (some R) L).error = none →
        (download_file rc net1 net2 (some R) L).finalLen = R) := by
  refine ⟨?_, ?_, download_file_ok_finalLen⟩
  · intro rc net1 net2 R L hL hLR hrc
    have hne : ¬ L = R := by omega
    have hstart : (if L > R then 0 else L) = L := if_neg (by omega)
    have hLnz : L ≠ 0 := by omega
    have hopens : (download_attempt rc net1 L L).opens
        = [(FileMode.append, L)] := by
      rw [download_attempt_opens, if_pos hLnz]
    have hfetch : (download_attempt rc net1 L L).fetches.head? = some L :=
      download_attempt_fetches_head_append rc net1 L L hrc hLnz
    constructor
    · simp only [download_file, if_neg hne, hstart]
      cases ha : (download_attempt rc net1 L L).error with
      | none =>
        simp only [ha, finish_download_opens, hopens]
        rfl
      | some e =>
        simp only [ha]
        exact resume_or_raise_opens_head _ _ _ _ _ _ (by rw [hopens]; rfl)
    · simp only [download_file, if_neg hne, hstart]
      cases ha : (download_attempt rc net1 L L).error with
      | none =>
        simp only [ha, finish_download_fetches]
        exact hfetch
      | some e =>
        simp only [ha]
        exact resume_or_raise_fetches_head _ _ _ _ _ _ hfetch
  · intro rc net1 net2 R L hRL hrc
    have hne : ¬ L = R := by omega
    have hstart : (if L > R then 0 else L) = 0 := if_pos (by omega)
    have hopens : (download_attempt rc net1 0 0).opens
        = [(FileMode.write, 0)] := by
      rw [download_attempt_opens, if_neg (by omega : ¬ (0:Nat) ≠ 0)]
    have hfetch : (download_attempt rc net1 0 0).fetches.head? = some 0 :=
      download_attempt_fetches_head_write rc net1 0 hrc
    constructor
    · simp only [download_file, if_neg hne, hstart]
      cases ha : (download_attempt rc net1 0 0).error with
      | none =>
        simp only [ha, finish_download_opens, hopens]
        rfl
      | some e =>
        simp only [ha]
        exact resume_or_raise_opens_head _ _ _ _ _ _ (by rw [hopens]; rfl)
    · simp only [download_file, if_neg hne, hstart]
      cases ha : (download_attempt rc net1 0 0).error with
      | none =>
        simp only [ha, finish_download_fetches]
        exact hfetch
      | some e =>
        simp only [ha]
        exact resume_or_raise_fetches_head _ _ _ _ _ _ hfetch

/-- Witness for C5 (amended) at a concrete resume: local length 1,
server size 2, one attempt allowed. -/
theorem C5_resume_protocol_witness :
    (download_file 1 constOkNet constOkNet (some 2) 1).opens.head?
        = some (FileMode.append, 1) ∧
    (download_file 1 constOkNet constOkNet (some 2) 1).fetches.head?
        = some 1 :=
  C5_resume_protocol.1 1 constOkNet constOkNet 2 1 (by omega) (by omega)
    (by omega)

/-- C10: a local file already of the server-reported size makes
`download_file` return at once — no open, no fetch, no error, no change
to the file; consequently a second call straight after a successful one
is a no-op. -/
theorem C10_download_idempotent :
    (∀ (rc : Nat) (net1 net2 : Nat → RetrStep) (R : Nat),
        download_file rc net1 net2 (some R) R = ⟨R, [], [], none⟩) ∧
    (∀ (p q : Nat) (n1 n2 m1 m2 : Nat → RetrStep) (R L : Nat),
        (download_file p n1 n2 (some R) L).error = none →
        download_file q m1 m2 (some R)
            ((download_file p n1 n2 (some R) L).finalLen)
          = ⟨R, [], [], none⟩) := by
  have h1 : ∀ (rc : Nat) (net1 net2 : Nat → RetrStep) (R : Nat),
      download_file rc net1 net2 (some R) R = ⟨R, [], [], none⟩ := by
    intro rc net1 net2 R
    simp [download_file]
  refine ⟨h1, ?_⟩
  intro p q n1 n2 m1 m2 R L h
  rw [download_file_ok_finalLen p n1 n2 R L h]
  exact h1 q m1 m2 R

/-- Witness for C10: the second call after a successful download of a
2-byte file from local length 1 is a no-op. -/
theorem C10_download_idempotent_witness :
    download_file 1 constOkNet constOkNet (some 2)
        ((download_file 1 constOkNet constOkNet (some 2) 1).finalLen)
      = ⟨2, [], [], none⟩ :=
  C10_download_idempotent.2 1 1 constOkNet constOkNet constOkNet
    constOkNet 2 1 rfl

/-! ## Claim C6 -/

theorem ftpCallGo_perm {α : Type} (cls : String) (attempts : Nat → Attempt α)
    (msgs : Nat → String) (recs : Nat → Option String) (msg : String) :
    ∀ (n fuel i : Nat) (lastE : Option String),
      (∀ j, j < n → attempts (i + j)
        = Attempt.tempFault (msgs (i + j)) (recs (i + j))) →
      attempts (i + n) = Attempt.permFault msg →
      n < fuel →
      ftpCallGo cls attempts fuel i lastE
        = (FtpCallResult.permanentError cls msg, n, n)
  | 0, fuel, i, lastE, _, hperm, hfuel => by
    cases fuel with
    | zero => omega
    | succ f =>
      rw [Nat.add_zero] at hperm
      simp [ftpCallGo, hperm]
  | n + 1, fuel, i, lastE, htemp, hperm, hfuel => by
    cases fuel with
    | zero => omega
    | succ f =>
      have h0 : attempts i = Attempt.tempFault (msgs i) (recs i) := by
        have := htemp 0 (by omega)
        simpa using this
      have hrest := ftpCallGo_perm cls attempts msgs recs msg n f (i + 1)
        (some ((recs i).getD (msgs i)))
        (by
          intro j hj
          have := htemp (j + 1) (by omega)
          have harith : i + (j + 1) = i + 1 + j := by omega
          rw [harith] at this
          exact this)
        (by
          have harith : i + (n + 1) = i + 1 + n := by omega
          rw [harith] at hperm
          exact hperm)
        (by omega)
      simp [ftpCallGo, h0, hrest]

theorem ftpCallGo_ok {α : Type} (cls : String) (attempts : Nat → Attempt α)
    (msgs : Nat → String) (recs : Nat → Option String) (a : α) :
    ∀ (n fuel i : Nat) (lastE : Option String),
      (∀ j, j < n → attempts (i + j)
        = Attempt.tempFault (msgs (i + j)) (recs (i + j))) →
      attempts (i + n) = Attempt.ok a →
      n < fuel →
      ftpCallGo cls attempts fuel i lastE = (FtpCallResult.ok a, n, n)
  | 0, fuel, i, lastE, _, hok, hfuel => by
    cases fuel with
    | zero => omega
    | succ f =>
      rw [Nat.add_zero] at hok
      simp [ftpCallGo, hok]
  | n + 1, fuel, i, lastE, htemp, hok, hfuel => by
    cases fuel with
    | zero => omega
    | succ f =>
      have h0 : attempts i = Attempt.tempFault (msgs i) (recs i) := by
        have := htemp 0 (by omega)
        simpa using this
      have hrest := ftpCallGo_ok cls attempts msgs recs a n f (i + 1)
        (some ((recs i).getD (msgs i)))
        (by
          intro j hj
          have := htemp (j + 1) (by omega)
          have harith : i + (j + 1) = i + 1 + j := by omega
          rw [harith] at this
          exact this)
        (by
          have harith : i + (n + 1) = i + 1 + n := by omega
          rw [harith] at hok
          exact hok)
        (by omega)
      simp [ftpCallGo, h0, hrest]

theorem ftpCallGo_temp_step {α : Type} (cls : String)
    (attempts : Nat → Attempt α) (f i : Nat) (lastE : Option String)
    (m : String) (recon : Option String)
    (h : attempts i = Attempt.tempFault m recon) :
    ftpCallGo cls attempts (f + 1) i lastE
      = ((ftpCallGo cls attempts f (i + 1) (some (recon.getD m))).1,
         (ftpCallGo cls attempts f (i + 1) (some (recon.getD m))).2.1 + 1,
         (ftpCallGo cls attempts f (i + 1) (some (recon.getD m))).2.2 + 1) := by
  simp [ftpCallGo, h]

theorem ftpCallGo_exhausted {α : Type} (cls : String)
    (attempts : Nat → Attempt α) (msgs : Nat → String)
    (recs : Nat → Option String) :
    ∀ (fuel i : Nat) (lastE : Option String), 0 < fuel →
      (∀ j, j < fuel → attempts (i + j)
        = Attempt.tempFault (msgs (i + j)) (recs (i + j))) →
      ftpCallGo cls attempts fuel i lastE
        = (FtpCallResult.exhausted cls
            (some ((recs (i + fuel - 1)).getD (msgs (i + fuel - 1)))),
           fuel, fuel)
  | 0, i, lastE, hfuel, _ => by omega
  | 1, i, lastE, _, htemp => by
    have h0 : attempts i = Attempt.tempFault (msgs i) (recs i) := by
      have := htemp 0 (by omega)
      simpa using this
    rw [ftpCallGo_temp_step cls attempts 0 i lastE (msgs i) (recs i) h0]
    simp [ftpCallGo]
  | f + 2, i, lastE, _, htemp => by
    have h0 : attempts i = Attempt.tempFault (msgs i) (recs i) := by
      have := htemp 0 (by omega)
      simpa using this
    have hrest := ftpCallGo_exhausted cls attempts msgs recs (f + 1) (i + 1)
      (some ((recs i).getD (msgs i))) (by omega)
      (by
        intro j hj
        have := htemp (j + 1) (by omega)
        have harith : i + (j + 1) = i + 1 + j := by omega
        rw [harith] at this
        exact this)
    have harith : i + 1 + (f + 1) - 1 = i + (f + 2) - 1 := by omega
    rw [harith] at hrest
    rw [ftpCallGo_temp_step cls attempts (f + 1) i lastE (msgs i) (recs i) h0,
      hrest]

/-- C6: under the retry envelope `_ftp_call`, (a) a permanent fault
(`error_perm`/`error_reply`/`error_proto`) raises the mapped domain
error immediately on its first occurrence — the `n` transient faults
before it account for exactly `n` reconnect attempts (each `_reconnect`
is a single try, never itself retried) and `n` fixed sleeps, and no
further attempt follows the permanent fault; (b) a call succeeding at
attempt `n` after `n` transient faults performs exactly one reconnect
and one sleep per failure; (c) when all `repeatCount` attempts fail
transiently, the raised error carries the last underlying cause — the
reconnect error when the last reconnect failed, else the last fault. -/
theorem C6_retry_envelope :
    (∀ (α : Type) (cls : String) (attempts : Nat → Attempt α)
        (msgs : Nat → String) (recs : Nat → Option String)
        (msg : String) (n repeatCount : Nat),
        (∀ j, j < n → attempts j = Attempt.tempFault (msgs j) (recs j)) →
        attempts n = Attempt.permFault msg →
        n < repeatCount →
        ftp_call cls repeatCount attempts
          = (FtpCallResult.permanentError cls msg, n, n)) ∧
    (∀ (α : Type) (cls : String) (attempts : Nat → Attempt α)
        (msgs : Nat → String) (recs : Nat → Option String)
        (a : α) (n repeatCount : Nat),
        (∀ j, j < n → attempts j = Attempt.tempFault (msgs j) (recs j)) →
        attempts n = Attempt.ok a →
        n < repeatCount →
        ftp_call cls repeatCount attempts
          = (FtpCallResult.ok a, n, n)) ∧
    (∀ (α : Type) (cls : String) (attempts : Nat → Attempt α)
        (msgs : Nat → String) (recs : Nat → Option String)
        (repeatCount : Nat), 0 < repeatCount →
        (∀ j, j < repeatCount →
          attempts j = Attempt.tempFault (msgs j) (recs j)) →
        ftp_call cls repeatCount attempts
          = (FtpCallResult.exhausted cls
              (some ((recs (repeatCount - 1)).getD (msgs (repeatCount - 1)))),
             repeatCount, repeatCount)) := by
  refine ⟨?_, ?_, ?_⟩
  · intro α cls attempts msgs recs msg n repeatCount htemp hperm hlt
    have h := ftpCallGo_perm cls attempts msgs recs msg n repeatCount 0 none
      (by simpa using htemp) (by simpa using hperm) hlt
    exact h
  · intro α cls attempts msgs recs a n repeatCount htemp hok hlt
    have h := ftpCallGo_ok cls attempts msgs recs a n repeatCount 0 none
      (by simpa using htemp) (by simpa using hok) hlt
    exact h
  · intro α cls attempts msgs recs repeatCount hpos htemp
    have h := ftpCallGo_exhausted cls attempts msgs recs repeatCount 0 none
      hpos (by simpa using htemp)
    simpa using h

/-- Witness for C6: the three cases at concrete oracles with three
allowed attempts. -/
theorem C6_retry_envelope_witness :
    ftp_call "DownloadFileError" 3 c6AttemptsPerm
      = (FtpCallResult.permanentError "DownloadFileError" "550 denied",
         1, 1) ∧
    ftp_call "DownloadFileError" 3 c6AttemptsOk
      = (FtpCallResult.ok 7, 2, 2) ∧
    ftp_call "DownloadFileError" 3 c6AttemptsTemp
      = (FtpCallResult.exhausted "DownloadFileError" (some "2"), 3, 3) := by
  refine ⟨?_, ?_, ?_⟩
  · exact C6_retry_envelope.1 Nat "DownloadFileError" c6AttemptsPerm
      (fun _ => "timeout") (fun _ => none) "550 denied" 1 3
      (by
        intro j hj
        have hj0 : j = 0 := by omega
        subst hj0
        rfl)
      rfl (by omega)
  · exact C6_retry_envelope.2.1 Nat "DownloadFileError" c6AttemptsOk
      (fun _ => "timeout")
      (fun i => if i = 0 then none else some "reconnect failed") 7 2 3
      (by
        intro j hj
        match j, hj with
        | 0, _ => rfl
        | 1, _ => rfl)
      rfl (by omega)
  · exact C6_retry_envelope.2.2 Nat "DownloadFileError" c6AttemptsTemp
      toString (fun _ => none) 3 (by omega)
      (by
        intro j hj
        rfl)

/-! ## Claim C7 -/

theorem except_pure_eq {α β : Type} (a : α) :
    (pure a : Except β α) = Except.ok a := rfl

theorem except_bind_ok {α β γ : Type} (a : α) (f : α → Except γ β) :
    (Except.ok a >>= f) = f a := rfl

theorem except_map_ok {α β γ : Type} (f : α → β) (a : α) :
    (f <$> (Except.ok a : Except γ α)) = Except.ok (f a) := rfl

theorem clean_dir_ok (entries : List DirEntry)
    (h : entries.all (fun e => e.isFile) = true) :
    clean_dir entries = Except.ok [] := by
  simp [clean_dir, h]

theorem sanitize_new_dir_ok : ∀ entries : List DirEntry,
    (∀ e ∈ entries, e.isFile = true ∧ e.size ≠ 0) →
    sanitize_new_dir entries = Except.ok ([], entries)
  | [], _ => rfl
  | e :: rest, h => by
    obtain ⟨hf, hs⟩ := h e (List.mem_cons_self e rest)
    have ih := sanitize_new_dir_ok rest
      (fun x hx => h x (List.mem_cons_of_mem e hx))
    simp [sanitize_new_dir, hf, hs, ih]

/-- C7 fails as stated: with a non-empty staging directory and a
decision function answering STOP, the orchestrator does return failure
with no downloads — but the report item it appends carries severity
ERROR, not FATAL (the repository's own test
`test_ensure_new_and_old_dirs_ready_handles_stop` pins ERROR, while the
method's docstring says FATAL). -/
theorem C7_counterexample :
    TransferService.run (fun _ => NewDirAction.STOP) (fun _ => none)
        ⟨[], [⟨"f.txt", true, 3⟩], []⟩
      = Except.ok ⟨false, [stopReportItem], [⟨"f.txt", true, 3⟩], [], []⟩ ∧
    stopReportItem.status = StatusReport.ERROR ∧
    ([stopReportItem].filter
      (fun it => it.status == StatusReport.FATAL)) = [] := by
  refine ⟨rfl, rfl, by decide⟩

/-- C7 amended: when staging is non-empty and the injected decision is
STOP, the orchestrator returns failure whose report is exactly the one
ERROR-severity (not FATAL) "user refused" item, downloads nothing and
touches no network; RESTART clears both the staging and retired
directories before downloading; CONTINUE keeps the existing staging
content (here: all entries regular non-empty files, which the sanitize
step preserves) and downloading proceeds over the whole plan. -/
theorem C7_stop_restart_continue :
    (∀ (selector : List DirEntry → NewDirAction)
        (dl : String → Option String) (inp : TransferInput),
        inp.new_dir ≠ [] →
        selector inp.new_dir = NewDirAction.STOP →
        TransferService.run selector dl inp
          = Except.ok ⟨false, [stopReportItem], inp.new_dir,
              inp.old_dir, []⟩) ∧
    (∀ (selector : List DirEntry → NewDirAction)
        (dl : String → Option String) (inp : TransferInput),
        inp.new_dir ≠ [] →
        selector inp.new_dir = NewDirAction.RESTART →
        inp.new_dir.all (fun e => e.isFile) = true →
        inp.old_dir.all (fun e => e.isFile) = true →
        TransferService.run selector dl inp
          = Except.ok ⟨(downloadReport dl
                (inp.snapshots_for_loading.map FileSnapshot.name)).isEmpty,
              downloadReport dl
                (inp.snapshots_for_loading.map FileSnapshot.name),
              [], [],
              inp.snapshots_for_loading.map FileSnapshot.name⟩) ∧
    (∀ (selector : List DirEntry → NewDirAction)
        (dl : String → Option String) (inp : TransferInput),
        selector inp.new_dir = NewDirAction.CONTINUE →
        (∀ e ∈ inp.new_dir, e.isFile = true ∧ e.size ≠ 0) →
        TransferService.run selector dl inp
          = Except.ok ⟨(downloadReport dl
                (inp.snapshots_for_loading.map FileSnapshot.name)).isEmpty,
              downloadReport dl
                (inp.snapshots_for_loading.map FileSnapshot.name),
              inp.new_dir, inp.old_dir,
              inp.snapshots_for_loading.map FileSnapshot.name⟩) := by
  refine ⟨?_, ?_, ?_⟩
  · intro selector dl inp hne hsel
    have hie : inp.new_dir.isEmpty = false := by
      cases hd : inp.new_dir with
      | nil => exact absurd hd hne
      | cons a l => rfl
    simp [TransferService.run, hie, hsel, except_pure_eq, except_bind_ok,
      except_map_ok]
  · intro selector dl inp hne hsel hnf hof
    have hie : inp.new_dir.isEmpty = false := by
      cases hd : inp.new_dir with
      | nil => exact absurd hd hne
      | cons a l => rfl
    simp [TransferService.run, hie, hsel, clean_dir_ok _ hnf,
      clean_dir_ok _ hof, sanitize_new_dir_ok [] (by simp),
      except_pure_eq, except_bind_ok, except_map_ok]
  · intro selector dl inp hsel hent
    cases hd : inp.new_dir with
    | nil =>
      simp [TransferService.run, hd, sanitize_new_dir_ok [] (by simp),
        except_pure_eq, except_bind_ok, except_map_ok]
    | cons a l =>
      have hent2 : ∀ e ∈ a :: l, e.isFile = true ∧ e.size ≠ 0 := by
        rw [← hd]
        exact hent
      rw [hd] at hsel
      simp [TransferService.run, hd, hsel, sanitize_new_dir_ok _ hent2,
        except_pure_eq, except_bind_ok, except_map_ok]

/-- Witness for C7 (amended): the CONTINUE branch at a concrete input
with one staged non-empty file and one planned download. -/
theorem C7_stop_restart_continue_witness :
    TransferService.run (fun _ => NewDirAction.CONTINUE) (fun _ => none)
        ⟨[⟨"a.zip", some 3, none⟩], [⟨"p.bin", true, 7⟩], []⟩
      = Except.ok ⟨true, [], [⟨"p.bin", true, 7⟩], [], ["a.zip"]⟩ :=
  C7_stop_restart_continue.2.2 (fun _ => NewDirAction.CONTINUE)
    (fun _ => none) ⟨[⟨"a.zip", some 3, none⟩], [⟨"p.bin", true, 7⟩], []⟩
    rfl (by decide)

/-! ## Claim C8 -/

/-- C8 fails as stated: in a run whose post-download validation failed,
the commit is correctly skipped, yet `execution_gate.record_run` is
still invoked — the call sits outside the commit guard in
`_validate_commit_execution_gate`, so the run is recorded despite the
failure, contradicting "the record-run step is invoked only when that
commit succeeded". -/
theorem C8_counterexample :
    CtrlEvent.commitRun ∉ SyncController.run ⟨false, true, true, false⟩ ∧
    CtrlEvent.recordRun ∈ SyncController.run ⟨false, true, true, false⟩ := by
  refine ⟨by decide, by decide⟩

/-- C8 amended: in every run the gate lets through, the commit executes
exactly when the plan validity flag, the transfer success flag and the
post-download validation flag are all true (so the commit does run only
when the claim's two flags hold), and `record_run` is invoked
unconditionally at the end of the validate/commit stage — also when the
commit was skipped. -/
theorem C8_commit_guard_record_run :
    ∀ inp : ControllerInput, inp.gate_skip = false →
      ((CtrlEvent.commitRun ∈ SyncController.run inp) ↔
        (inp.is_validate_plan = true ∧ inp.is_validate_download = true ∧
         inp.is_validate_commit = true)) ∧
      CtrlEvent.recordRun ∈ SyncController.run inp := by
  intro inp h
  obtain ⟨g, p, d, v⟩ := inp
  simp only at h
  subst h
  cases p <;> cases d <;> cases v <;> exact by decide

/-- Witness for C8 (amended): a fully successful run commits and
records. -/
theorem C8_commit_guard_record_run_witness :
    CtrlEvent.commitRun ∈ SyncController.run ⟨false, true, true, true⟩ ∧
    CtrlEvent.recordRun ∈ SyncController.run ⟨false, true, true, true⟩ :=
  ⟨(C8_commit_guard_record_run ⟨false, true, true, true⟩ rfl).1.mpr
      ⟨rfl, rfl, rfl⟩,
   (C8_commit_guard_record_run ⟨false, true, true, true⟩ rfl).2⟩

end Galaxy

